import Mathlib

/-!
Verification development for the HDTN bundle persistent store
(`src/module/storage/src/BundleStorageManagerBase.cpp`) and the BPSec policy
engine (`src/common/bpsec/src/BpSecPolicyManager.cpp`).

The C++ state (memory-manager tree, destination catalog, disk contents, read
and write sessions) is embedded as explicit functional state; each C++ member
function becomes a Lean function threading that state.  Machine integers are
`Nat` with the sentinels `UINT64_MAX` and `UINT32_MAX` written out explicitly;
fallible operations return `Option` (with `none` standing for a C++ failure
return or an out-of-bounds array access).
-/

namespace HDTN

/-- The 64-bit sentinel `UINT64_MAX`; written to `bundleSizeBytes` of every
non-head segment and of a removed head segment. -/
def U64MAX : Nat := 2 ^ 64 - 1

/-- The 32-bit sentinel `UINT32_MAX`; written to `nextSegmentId` of the last
segment of a chain. -/
def U32MAX : Nat := 2 ^ 32 - 1

/-- Modelled from the spec: `BUNDLE_STORAGE_PER_SEGMENT_SIZE` (the
per-segment payload capacity) is defined in `BundleStorageManagerBase.h`,
which is not among the provided sources; the spec fixes the nominal value
`SEGMENT_SIZE - SEGMENT_RESERVED_SPACE = 4096 - 20 = 4076`. -/
def BUNDLE_STORAGE_PER_SEGMENT_SIZE : Nat := 4076

/-- Modelled from the spec: `NUMBER_OF_PRIORITIES` (the catalog has
priorities 0 = bulk, 1 = normal, 2 = expedited), from
`BundleStorageManagerBase.h` which is not among the provided sources. -/
def NUMBER_OF_PRIORITIES : Nat := 3

/-- The fields of `bpv6_primary_block` that `BundleStorageManagerBase` reads
(`Push` and `RestoreFromDisk` use only `flags`, `dst_node`, `creation`,
`lifetime`). -/
structure Bpv6PrimaryBlock where
  flags : Nat
  dst_node : Nat
  creation : Nat
  lifetime : Nat
deriving Repr, DecidableEq

/-- `session.priorityIndex = (bundlePrimaryBlock.flags >> 7) & 3`
(BundleStorageManagerBase.cpp line 109 and line 444). -/
def bpv6PriorityIndex (flags : Nat) : Nat := (flags >>> 7) &&& 3

/-- `chain_info_t = std::pair<uint64_t bundleSizeBytes, segment_id_chain_vec_t>`. -/
structure chain_info_t where
  bundleSizeBytes : Nat
  segmentIdChainVec : List Nat
deriving Repr, DecidableEq

/-- The 12-byte reserved header plus payload of one on-disk segment, as
written by `PushSegment` (lines 147-149): `bundleSizeBytes`, `nextSegmentId`
and the payload bytes. -/
structure StoredSegment where
  bundleSizeBytes : Nat
  nextSegmentId : Nat
  payload : List Nat
deriving Repr, DecidableEq

/-- `chain_info_flist_t = std::forward_list<chain_info_t>` (LIFO bucket). -/
abbrev chain_info_flist_t := List chain_info_t

/-- `expiration_map_t = std::map<abs_expiration_t, chain_info_flist_t>`,
modelled as an association list kept sorted by strictly increasing key, so
that its head is `std::map::begin()` (the least key). -/
abbrev expiration_map_t := List (Nat × chain_info_flist_t)

/-- `priority_array_t = std::array<expiration_map_t, NUMBER_OF_PRIORITIES>`,
modelled as a list whose well-formed length is `NUMBER_OF_PRIORITIES`. -/
abbrev priority_array_t := List expiration_map_t

/-- A freshly created `priority_array_t` (`m_destMap[dst]` value-initializes). -/
def priority_array_new : priority_array_t := List.replicate NUMBER_OF_PRIORITIES []

/-- `destination_map_t = std::map<uint64_t, priority_array_t>` as an
association list (no ordered iteration over it is performed). -/
abbrev destination_map_t := List (Nat × priority_array_t)

/-- Update the first binding of `k` in an association list with `f`, or
append `(k, f dflt)` when absent (`std::map::operator[]` creates the entry). -/
def assocUpdate [DecidableEq κ] (l : List (κ × α)) (k : κ) (dflt : α) (f : α → α) :
    List (κ × α) :=
  match l with
  | [] => [(k, f dflt)]
  | (k', v) :: t => if k' = k then (k, f v) :: t else (k', v) :: assocUpdate t k dflt f

/-- Insert a chain at the front of the bucket for expiration `e`, creating
the bucket at its sorted position when absent
(`expirationMap[absExpiration].push_front`). -/
def expMapPushFront : expiration_map_t → Nat → chain_info_t → expiration_map_t
  | [], e, ci => [(e, [ci])]
  | (e', l) :: t, e, ci =>
    if e = e' then (e', ci :: l) :: t
    else if e < e' then (e, [ci]) :: (e', l) :: t
    else (e', l) :: expMapPushFront t e ci

/-- Pop the front of the bucket for expiration `e`; erase the key when the
bucket becomes empty (PopTop lines 213-218). -/
def expMapPopFront : expiration_map_t → Nat → expiration_map_t
  | [], _ => []
  | (e', l) :: t, e =>
    if e' = e then
      match l with
      | [] => t
      | _ :: [] => t
      | _ :: c :: cs => (e', c :: cs) :: t
    else (e', l) :: expMapPopFront t e

/-- Modelled from the spec: the `MemoryManagerTreeArray` sources are not in
`src/`; §4.1 specifies `allocate(n)` as an atomic smallest-ID-first selection
of `n` free segment IDs from `[0, MAX_SEGMENTS)`, failing when fewer than `n`
are free.  The manager state is the set of used segment IDs. -/
def AllocateSegments_ThreadSafe (maxSegments : Nat) (used : Finset Nat)
    (n : Nat) : Option (List Nat × Finset Nat) :=
  let free := (List.range maxSegments).filter (fun i => i ∉ used)
  if n ≤ free.length then
    some (free.take n, used ∪ (free.take n).toFinset)
  else none

/-- Modelled from the spec: `free(chain)` returns the chain's segments to the
free pool; the returned flag reports whether every freed segment was
currently in use. -/
def FreeSegments_ThreadSafe (used : Finset Nat) (chain : List Nat) :
    Bool × Finset Nat :=
  (chain.all (fun i => i ∈ used), used \ chain.toFinset)

/-- Modelled from the spec: `isFree(id)` inspects the used set. -/
def IsSegmentFree (used : Finset Nat) (segmentId : Nat) : Bool :=
  segmentId ∉ used

/-- The state of `BundleStorageManagerBase` visible to the claims: the
memory-manager used-set, the catalog `m_destMap`, and the logical disk
contents keyed by segment ID (the per-disk circular buffers and worker
threads are the transport for these writes; workers never drop entries, so a
committed slot is modelled as the disk record itself). -/
structure BundleStorageManagerBase where
  M_MAX_SEGMENTS : Nat
  M_NUM_STORAGE_DISKS : Nat
  m_memoryManager : Finset Nat
  m_destMap : destination_map_t
  disk : List (Nat × StoredSegment)
deriving DecidableEq

/-- A store with empty catalog, empty disk and all segments free. -/
def emptyStore (maxSegments numDisks : Nat) : BundleStorageManagerBase :=
  { M_MAX_SEGMENTS := maxSegments
    M_NUM_STORAGE_DISKS := numDisks
    m_memoryManager := ∅
    m_destMap := []
    disk := [] }

/-- `BundleStorageManagerSession_WriteToDisk`. -/
structure BundleStorageManagerSession_WriteToDisk where
  chainInfo : chain_info_t
  nextLogicalSegment : Nat
  destLinkId : Nat
  priorityIndex : Nat
  absExpiration : Nat
deriving Repr, DecidableEq

/-- `ceil(bundleSizeBytes / BUNDLE_STORAGE_PER_SEGMENT_SIZE)` exactly as
written in `Push` (line 100) and `RestoreFromDisk` (line 433). -/
def totalSegmentsRequiredFor (bundleSizeBytes : Nat) : Nat :=
  bundleSizeBytes / BUNDLE_STORAGE_PER_SEGMENT_SIZE +
    (if bundleSizeBytes % BUNDLE_STORAGE_PER_SEGMENT_SIZE = 0 then 0 else 1)

/-- `BundleStorageManagerBase::Push` (lines 97-118): compute the number of
segments, fill the session from the primary block, allocate the chain.
Returns `none` when allocation fails (the C++ returns 0). -/
def Push (bsm : BundleStorageManagerBase)
    (bundlePrimaryBlock : Bpv6PrimaryBlock) (bundleSizeBytes : Nat) :
    Option (Nat × BundleStorageManagerSession_WriteToDisk × BundleStorageManagerBase) :=
  let totalSegmentsRequired := totalSegmentsRequiredFor bundleSizeBytes
  match AllocateSegments_ThreadSafe bsm.M_MAX_SEGMENTS bsm.m_memoryManager
      totalSegmentsRequired with
  | some (segmentIdChainVec, used') =>
    some (totalSegmentsRequired,
      { chainInfo := ⟨bundleSizeBytes, segmentIdChainVec⟩
        nextLogicalSegment := 0
        destLinkId := bundlePrimaryBlock.dst_node
        priorityIndex := bpv6PriorityIndex bundlePrimaryBlock.flags
        absExpiration := bundlePrimaryBlock.creation + bundlePrimaryBlock.lifetime },
      { bsm with m_memoryManager := used' })
  | none => none

/-- Insertion of a completed chain at
`m_destMap[destLinkId][priorityIndex][absExpiration]` (PushSegment lines
154-160 and RestoreFromDisk lines 471-474).  The C++ `priorityArray[i]` is an
unchecked `std::array` access: an index outside
`[0, NUMBER_OF_PRIORITIES)` is undefined behaviour, modelled as `none`. -/
def catalogInsert (dm : destination_map_t) (destLinkId priorityIndex absExpiration : Nat)
    (chainInfo : chain_info_t) : Option destination_map_t :=
  if priorityIndex < NUMBER_OF_PRIORITIES then
    some (assocUpdate dm destLinkId priority_array_new (fun pa =>
      pa.set priorityIndex
        (expMapPushFront ((pa.get? priorityIndex).getD []) absExpiration chainInfo)))
  else none

/-- `BundleStorageManagerBase::PushSegment` (lines 120-163): write the
segment record `[bundleSizeBytes | nextSegmentId | payload]` for the current
logical segment, advance the session, and on the final segment push the chain
onto the front of its catalog bucket.  `some (false, ..)` is the C++
`return 0` no-op when every segment was already pushed; `none` is the
undefined catalog array access (priority index out of bounds). -/
def PushSegment (bsm : BundleStorageManagerBase)
    (session : BundleStorageManagerSession_WriteToDisk) (buf : List Nat) :
    Option (Bool × BundleStorageManagerBase × BundleStorageManagerSession_WriteToDisk) :=
  let chainVec := session.chainInfo.segmentIdChainVec
  if session.nextLogicalSegment < chainVec.length then
    let bundleSizeBytes :=
      if session.nextLogicalSegment = 0 then session.chainInfo.bundleSizeBytes else U64MAX
    let segmentId := chainVec.getD session.nextLogicalSegment 0
    let session' := { session with nextLogicalSegment := session.nextLogicalSegment + 1 }
    let nextSegmentId :=
      if session'.nextLogicalSegment = chainVec.length then U32MAX
      else chainVec.getD session'.nextLogicalSegment 0
    let bsm' := { bsm with
      disk := (segmentId, ⟨bundleSizeBytes, nextSegmentId, buf⟩) :: bsm.disk }
    if session'.nextLogicalSegment = chainVec.length then
      match catalogInsert bsm'.m_destMap session'.destLinkId session'.priorityIndex
          session'.absExpiration session'.chainInfo with
      | some dm => some (true, { bsm' with m_destMap := dm }, session')
      | none => none
    else
      some (true, bsm', session')
  else
    some (false, bsm, session)

/-- The caller-side slice of the bundle bytes for logical segment `i`:
the push loop hands `PushSegment` successive windows of at most
`BUNDLE_STORAGE_PER_SEGMENT_SIZE` bytes. -/
def segmentSlice (b : List Nat) (i : Nat) : List Nat :=
  (b.drop (i * BUNDLE_STORAGE_PER_SEGMENT_SIZE)).take BUNDLE_STORAGE_PER_SEGMENT_SIZE

/-- Drive `PushSegment` once per remaining logical segment with the
corresponding slice of `b` (the "PushSegment once per segment" push loop). -/
def pushSegmentsFrom : Nat → BundleStorageManagerBase →
    BundleStorageManagerSession_WriteToDisk → List Nat →
    Option BundleStorageManagerBase
  | 0, bsm, _, _ => some bsm
  | n + 1, bsm, session, b =>
    match PushSegment bsm session (segmentSlice b session.nextLogicalSegment) with
    | some (true, bsm', session') => pushSegmentsFrom n bsm' session' b
    | _ => none

/-- Push every segment of bundle `b` for a freshly created write session. -/
def PushAllSegments (bsm : BundleStorageManagerBase)
    (session : BundleStorageManagerSession_WriteToDisk) (b : List Nat) :
    Option BundleStorageManagerBase :=
  pushSegmentsFrom (session.chainInfo.segmentIdChainVec.length - session.nextLogicalSegment)
    bsm session b

/-- `BundleStorageManagerSession_ReadFromDisk` (the read-cache indices are
I/O plumbing; the logically relevant fields are kept). -/
structure BundleStorageManagerSession_ReadFromDisk where
  chainInfo : chain_info_t
  nextLogicalSegment : Nat
  destLinkId : Nat
  priorityIndex : Nat
  absExpiration : Nat
deriving Repr, DecidableEq

/-- The inner scan of `PopTop` at one priority (lines 186-210): over the
available links in order, track the lowest expiration seen so far (starting
from `UINT64_MAX`, improving only on a strictly smaller value, so the first
of several tied links wins) and remember that link's least expiration key and
its bucket. -/
def popTopScanGo (i : Nat) (lowestExpiration : Nat)
    (best : Option (Nat × Nat × chain_info_flist_t)) :
    List (Nat × priority_array_t) → Nat × Option (Nat × Nat × chain_info_flist_t)
  | [] => (lowestExpiration, best)
  | p :: rest =>
    match ((p.2.get? i).getD []).head? with
    | none => popTopScanGo i lowestExpiration best rest
    | some (e, bucket) =>
      if lowestExpiration > e then popTopScanGo i e (some (p.1, e, bucket)) rest
      else popTopScanGo i lowestExpiration best rest

def popTopScanPriority (pairs : List (Nat × priority_array_t)) (i : Nat) :
    Option (Nat × Nat × chain_info_flist_t) :=
  (popTopScanGo i U64MAX none pairs).2

/-- The take-custody step of `PopTop` at one priority (lines 211-224): pop
the front of the selected bucket, erasing its expiration key when it becomes
empty.  `front()` of an empty `forward_list` is undefined behaviour, modelled
as `none` at an ill-formed catalog. -/
def popTopAtPriority (bsm : BundleStorageManagerBase)
    (pairs : List (Nat × priority_array_t)) (i : Nat) :
    Option (BundleStorageManagerSession_ReadFromDisk × BundleStorageManagerBase) :=
  match popTopScanPriority pairs i with
  | none => none
  | some (destLinkId, absExpiration, bucket) =>
    match bucket with
    | [] => none
    | chainInfo :: _ =>
      let dm' := assocUpdate bsm.m_destMap destLinkId priority_array_new (fun pa =>
        pa.set i (expMapPopFront ((pa.get? i).getD []) absExpiration))
      some ({ chainInfo := chainInfo
              nextLogicalSegment := 0
              destLinkId := destLinkId
              priorityIndex := i
              absExpiration := absExpiration },
            { bsm with m_destMap := dm' })

/-- The priority loop of `PopTop` (`for i = NUMBER_OF_PRIORITIES-1 .. 0`). -/
def popTopLoop (bsm : BundleStorageManagerBase)
    (pairs : List (Nat × priority_array_t)) :
    Nat → Option (BundleStorageManagerSession_ReadFromDisk × BundleStorageManagerBase)
  | 0 => none
  | i + 1 =>
    match popTopAtPriority bsm pairs i with
    | some r => some r
    | none => popTopLoop bsm pairs i

/-- `BundleStorageManagerBase::PopTop` (lines 166-228): restrict the catalog
to the supplied destination links, then scan priorities from highest to
lowest for the lowest-expiration nonempty bucket and detach its front chain
into the session.  `none` is the C++ `return 0` (nothing available). -/
def PopTop (bsm : BundleStorageManagerBase) (availableDestLinks : List Nat) :
    Option (BundleStorageManagerSession_ReadFromDisk × BundleStorageManagerBase) :=
  let pairs := availableDestLinks.filterMap (fun link =>
    (bsm.m_destMap.lookup link).map (fun pa => (link, pa)))
  popTopLoop bsm pairs NUMBER_OF_PRIORITIES

/-- Read one segment record from the logical disk. -/
def diskRead (disk : List (Nat × StoredSegment)) (segmentId : Nat) :
    Option StoredSegment :=
  disk.lookup segmentId

/-- `BundleStorageManagerBase::TopSegment` (lines 235-308): fetch the current
logical segment of the session's chain through the read cache (the
read-ahead machinery always delivers exactly the on-disk record, so it is
modelled as a direct disk read), advance the session, and return the payload
bytes; the count returned is the full per-segment payload unless the
segment's stored `nextSegmentId` is `UINT32_MAX` and the bundle size is not
an exact multiple, in which case it is `bundleSizeBytes mod
BUNDLE_STORAGE_PER_SEGMENT_SIZE` (lines 295-301). -/
def TopSegment (bsm : BundleStorageManagerBase)
    (session : BundleStorageManagerSession_ReadFromDisk) :
    Option (List Nat × BundleStorageManagerSession_ReadFromDisk) :=
  match (session.chainInfo.segmentIdChainVec.get? session.nextLogicalSegment).bind
      (diskRead bsm.disk) with
  | none => none
  | some seg =>
    let session' := { session with nextLogicalSegment := session.nextLogicalSegment + 1 }
    let size :=
      if seg.nextSegmentId = U32MAX then
        if session.chainInfo.bundleSizeBytes % BUNDLE_STORAGE_PER_SEGMENT_SIZE ≠ 0 then
          session.chainInfo.bundleSizeBytes % BUNDLE_STORAGE_PER_SEGMENT_SIZE
        else BUNDLE_STORAGE_PER_SEGMENT_SIZE
      else BUNDLE_STORAGE_PER_SEGMENT_SIZE
    some (seg.payload.take size, session')

/-- Call `TopSegment` once per remaining segment, collecting the returned
byte blocks. -/
def readSegmentsFrom : Nat → BundleStorageManagerBase →
    BundleStorageManagerSession_ReadFromDisk →
    Option (List (List Nat) × BundleStorageManagerSession_ReadFromDisk)
  | 0, _, session => some ([], session)
  | n + 1, bsm, session =>
    match TopSegment bsm session with
    | none => none
    | some (bytes, session') =>
      (readSegmentsFrom n bsm session').map (fun r => (bytes :: r.1, r.2))

/-- Read every segment of the session's chain with `TopSegment`. -/
def ReadAllSegments (bsm : BundleStorageManagerBase)
    (session : BundleStorageManagerSession_ReadFromDisk) :
    Option (List (List Nat) × BundleStorageManagerSession_ReadFromDisk) :=
  readSegmentsFrom
    (session.chainInfo.segmentIdChainVec.length - session.nextLogicalSegment)
    bsm session

/-- `BundleStorageManagerBase::RemoveReadBundleFromDisk` (lines 309-348):
refuse (returning `false`, changing nothing) when the read is incomplete and
`forceRemove` is unset; otherwise overwrite the head segment's
`bundleSizeBytes` with `UINT64_MAX` on disk (the other bytes of the head
segment's reserved area and payload are left as they were) and free the
chain's segment IDs, returning the memory manager's status flag. -/
def RemoveReadBundleFromDisk (bsm : BundleStorageManagerBase)
    (session : BundleStorageManagerSession_ReadFromDisk) (forceRemove : Bool) :
    Bool × BundleStorageManagerBase :=
  if ¬forceRemove ∧
      session.nextLogicalSegment ≠ session.chainInfo.segmentIdChainVec.length then
    (false, bsm)
  else
    let segmentId := session.chainInfo.segmentIdChainVec.headD 0
    let headSeg := (diskRead bsm.disk segmentId).getD ⟨0, 0, []⟩
    let disk' := (segmentId, { headSeg with bundleSizeBytes := U64MAX }) :: bsm.disk
    let freed := FreeSegments_ThreadSafe bsm.m_memoryManager
      session.chainInfo.segmentIdChainVec
    (freed.1, { bsm with disk := disk', m_memoryManager := freed.2 })

/-- The counters and rebuilt state produced by `RestoreFromDisk`. -/
structure RestoreAcc where
  m_memoryManager : Finset Nat
  m_destMap : destination_map_t
  totalBundlesRestored : Nat
  totalBytesRestored : Nat
  totalSegmentsRestored : Nat
deriving DecidableEq

/-- A segment of the store file that was never written: files are
zero-filled, so a successful `fread` of such a segment yields all zeroes. -/
def zeroSegment : StoredSegment :=
  ⟨0, 0, List.replicate BUNDLE_STORAGE_PER_SEGMENT_SIZE 0⟩

/-- Whether segment `segmentId` lies wholly within its disk's store file:
the file on disk `segmentId mod D` holds `fileSegCounts[segmentId mod D]`
segments and the segment sits at index `segmentId / D` (lines 392-394). -/
def segmentInFile (numDisks : Nat) (fileSegCounts : List Nat) (segmentId : Nat) :
    Bool :=
  segmentId / numDisks < fileSegCounts.getD (segmentId % numDisks) 0

/-- `fread` of one segment during restore: fails (short read) past the end
of the file, and otherwise returns the written record or zeroes. -/
def restoreReadSegment (numDisks : Nat) (fileSegCounts : List Nat)
    (disk : List (Nat × StoredSegment)) (segmentId : Nat) :
    Option StoredSegment :=
  if segmentInFile numDisks fileSegCounts segmentId then
    some ((disk.lookup segmentId).getD zeroSegment)
  else none

/-- The chain walk of `RestoreFromDisk` (lines 449-486) after a head segment
has been identified and decoded: check the logical index against the required
chain length, check and allocate the segment ID, and either finish the chain
(requiring the stored `nextSegmentId` to be `UINT32_MAX` and inserting the
chain into the catalog) or follow a valid `nextSegmentId`.  Every `none` is a
C++ `return false` (restore aborted); the fuel argument only bounds the
recursion and exceeds the chain length at every call site. -/
def restoreChainWalk (readSeg : Nat → Option StoredSegment) (chainLen : Nat)
    (destLinkId priorityIndex absExpiration bundleSizeBytes : Nat) :
    Nat → Nat → Nat → List Nat → RestoreAcc → Option RestoreAcc
  | 0, _, _, _, _ => none
  | fuel + 1, nextLogicalSegment, segmentId, chainAcc, acc =>
    match readSeg segmentId with
    | none => none
    | some seg =>
      if chainLen ≤ nextLogicalSegment then none
      else if ¬ IsSegmentFree acc.m_memoryManager segmentId then none
      else
        let acc₁ := { acc with m_memoryManager := insert segmentId acc.m_memoryManager }
        let chainAcc' := chainAcc ++ [segmentId]
        if chainLen ≤ nextLogicalSegment + 1 then
          if seg.nextSegmentId ≠ U32MAX then none
          else
            match catalogInsert acc₁.m_destMap destLinkId priorityIndex absExpiration
                ⟨bundleSizeBytes, chainAcc'⟩ with
            | none => none
            | some dm =>
              some { acc₁ with
                m_destMap := dm
                totalBundlesRestored := acc₁.totalBundlesRestored + 1 }
        else
          if seg.nextSegmentId = U32MAX then none
          else
            restoreChainWalk readSeg chainLen destLinkId priorityIndex absExpiration
              bundleSizeBytes fuel (nextLogicalSegment + 1) seg.nextSegmentId
              chainAcc' acc₁

/-- The outer scan of `RestoreFromDisk` (lines 381-488) over potential head
segment IDs: skip IDs already allocated, terminate successfully at the first
free ID past end-of-file, skip segments whose `bundleSizeBytes` is
`UINT64_MAX` (non-heads), and otherwise decode the primary block from the
payload area (`decode = none` is the C++ `return false` for a malformed
bundle) and walk the chain.  `decode` stands for
`cbhe_bpv6_primary_block_decode`, whose source is not in `src/`. -/
def restoreOuterLoop (decode : List Nat → Option Bpv6PrimaryBlock)
    (numDisks : Nat) (fileSegCounts : List Nat)
    (disk : List (Nat × StoredSegment)) :
    Nat → Nat → RestoreAcc → Option RestoreAcc
  | 0, _, _ => none
  | fuel + 1, potentialHeadSegmentId, acc =>
    if ¬ IsSegmentFree acc.m_memoryManager potentialHeadSegmentId then
      restoreOuterLoop decode numDisks fileSegCounts disk fuel
        (potentialHeadSegmentId + 1) acc
    else if ¬ segmentInFile numDisks fileSegCounts potentialHeadSegmentId then
      some acc
    else
      let seg := ((disk.lookup potentialHeadSegmentId).getD zeroSegment)
      if seg.bundleSizeBytes = U64MAX then
        restoreOuterLoop decode numDisks fileSegCounts disk fuel
          (potentialHeadSegmentId + 1) acc
      else
        match decode seg.payload with
        | none => none
        | some primary =>
          let totalSegmentsRequired := totalSegmentsRequiredFor seg.bundleSizeBytes
          let acc' := { acc with
            totalBytesRestored := acc.totalBytesRestored + seg.bundleSizeBytes
            totalSegmentsRestored := acc.totalSegmentsRestored + totalSegmentsRequired }
          match restoreChainWalk (restoreReadSegment numDisks fileSegCounts disk)
              totalSegmentsRequired primary.dst_node (bpv6PriorityIndex primary.flags)
              (primary.creation + primary.lifetime) seg.bundleSizeBytes
              (totalSegmentsRequired + 1) 0 potentialHeadSegmentId [] acc' with
          | none => none
          | some acc'' =>
            restoreOuterLoop decode numDisks fileSegCounts disk fuel
              (potentialHeadSegmentId + 1) acc''

/-- `BundleStorageManagerBase::RestoreFromDisk` (lines 353-497), starting
from an empty memory manager and catalog.  The outer fuel exceeds the
largest segment ID the scan can reach before finding a free ID past
end-of-file. -/
def RestoreFromDisk (decode : List Nat → Option Bpv6PrimaryBlock)
    (numDisks : Nat) (fileSegCounts : List Nat)
    (disk : List (Nat × StoredSegment)) : Option RestoreAcc :=
  restoreOuterLoop decode numDisks fileSegCounts disk
    (numDisks * (fileSegCounts.foldr max 0 + 2) + 2) 0
    { m_memoryManager := ∅
      m_destMap := []
      totalBundlesRestored := 0
      totalBytesRestored := 0
      totalSegmentsRestored := 0 }

/-! ## BPSec policy engine (`BpSecPolicyManager.cpp`) -/

/-- `cbhe_eid_t`: a `(nodeId, serviceId)` pair. -/
abbrev cbhe_eid_t := Nat × Nat

/-- Association-list lookup keyed by decidable equality (`std::map::find`). -/
def assocLookup [DecidableEq κ] (l : List (κ × α)) (k : κ) : Option α :=
  match l with
  | [] => none
  | (k', v) :: t => if k' = k then some v else assocLookup t k

/-- Modelled from the spec: an EID URI string is either a fully qualified
`ipn:N.S`, a service wildcard `ipn:N.*`, or the any-EID `ipn:*.*`
(`Uri::ParseIpnUriString` is not among the provided sources; the three
syntactic shapes are taken as an inductive type). -/
inductive EidUri where
  | full (nodeId serviceId : Nat)
  | anyService (nodeId : Nat)
  | anyEid
deriving Repr, DecidableEq

/-- `BPSEC_ROLE::RESERVED_MAX_ROLE_TYPES`: the role enum holds SOURCE,
VERIFIER, ACCEPTOR, so the role index bound is 3 (modelled from the spec;
the enum header is not among the provided sources). -/
def RESERVED_MAX_ROLE_TYPES : Nat := 3

/-- `BpSecPolicyFilter`: one trie level, holding the exact-EID map, the
node-only (service wildcard) map, the single any-EID child, and at terminal
nodes the role-indexed policy array.  Policies are identified by a numeric
tag; their record contents are irrelevant to the lookup claims. -/
inductive BpSecPolicyFilter where
  | mk (eidMap : List (cbhe_eid_t × BpSecPolicyFilter))
       (nodeMap : List (Nat × BpSecPolicyFilter))
       (anyEidPtr : Option BpSecPolicyFilter)
       (policiesByRoleArray : List (Option Nat))

def BpSecPolicyFilter.m_eidToNextFilterMap : BpSecPolicyFilter →
    List (cbhe_eid_t × BpSecPolicyFilter)
  | .mk e _ _ _ => e

def BpSecPolicyFilter.m_nodeIdToNextFilterMap : BpSecPolicyFilter →
    List (Nat × BpSecPolicyFilter)
  | .mk _ n _ _ => n

def BpSecPolicyFilter.m_anyEidToNextFilterPtr : BpSecPolicyFilter →
    Option BpSecPolicyFilter
  | .mk _ _ a _ => a

def BpSecPolicyFilter.m_policiesByRoleArray : BpSecPolicyFilter → List (Option Nat)
  | .mk _ _ _ p => p

/-- A freshly constructed (empty) trie level. -/
def emptyPolicyFilter : BpSecPolicyFilter :=
  .mk [] [] none (List.replicate RESERVED_MAX_ROLE_TYPES none)

/-- `Internal_GetPolicyFilterFromThisFilter` (lines 179-195): the fully
qualified pair first, then the node-only map, then the any-EID child. -/
def Internal_GetPolicyFilterFromThisFilter (eid : cbhe_eid_t)
    (thisPolicyFilter : BpSecPolicyFilter) : Option BpSecPolicyFilter :=
  match assocLookup thisPolicyFilter.m_eidToNextFilterMap eid with
  | some next => some next
  | none =>
    match assocLookup thisPolicyFilter.m_nodeIdToNextFilterMap eid.1 with
    | some next => some next
    | none => thisPolicyFilter.m_anyEidToNextFilterPtr

/-- `BpSecPolicyManager::FindPolicy` (lines 196-216): walk the three trie
levels with the cascading lookup and read the terminal role entry, guarding
the role index against `RESERVED_MAX_ROLE_TYPES`. -/
def FindPolicy (root : BpSecPolicyFilter)
    (securitySourceEid bundleSourceEid bundleFinalDestEid : cbhe_eid_t)
    (role : Nat) : Option Nat :=
  match Internal_GetPolicyFilterFromThisFilter securitySourceEid root with
  | none => none
  | some f1 =>
    match Internal_GetPolicyFilterFromThisFilter bundleSourceEid f1 with
    | none => none
    | some f2 =>
      match Internal_GetPolicyFilterFromThisFilter bundleFinalDestEid f2 with
      | none => none
      | some f3 =>
        if role < RESERVED_MAX_ROLE_TYPES then
          (f3.m_policiesByRoleArray.getD role none)
        else none

/-- `Internal_AddPolicyFilterToThisFilter` (lines 99-124) in functional
form: apply `g` to the child filter selected by the URI form, creating the
child when absent (the C++ returns a pointer into the trie which the caller
then mutates; `g` is that continuation). -/
def Internal_AddPolicyFilterToThisFilter (eidUri : EidUri)
    (thisPolicyFilter : BpSecPolicyFilter)
    (g : BpSecPolicyFilter → BpSecPolicyFilter) : BpSecPolicyFilter :=
  match eidUri with
  | .anyEid =>
    .mk thisPolicyFilter.m_eidToNextFilterMap thisPolicyFilter.m_nodeIdToNextFilterMap
      (some (g (thisPolicyFilter.m_anyEidToNextFilterPtr.getD emptyPolicyFilter)))
      thisPolicyFilter.m_policiesByRoleArray
  | .anyService nodeId =>
    .mk thisPolicyFilter.m_eidToNextFilterMap
      (assocUpdate thisPolicyFilter.m_nodeIdToNextFilterMap nodeId emptyPolicyFilter g)
      thisPolicyFilter.m_anyEidToNextFilterPtr thisPolicyFilter.m_policiesByRoleArray
  | .full nodeId serviceId =>
    .mk (assocUpdate thisPolicyFilter.m_eidToNextFilterMap (nodeId, serviceId)
          emptyPolicyFilter g)
      thisPolicyFilter.m_nodeIdToNextFilterMap
      thisPolicyFilter.m_anyEidToNextFilterPtr thisPolicyFilter.m_policiesByRoleArray

/-- `BpSecPolicyManager::CreateOrGetNewPolicy` (lines 125-154): drill three
levels (creating filters as needed) and install `newPolicyId` at the role
slot when it is still empty (when a policy already exists the existing one
is kept, matching the create-or-get contract). -/
def CreateOrGetNewPolicy (root : BpSecPolicyFilter)
    (securitySourceEidUri bundleSourceEidUri bundleFinalDestEidUri : EidUri)
    (role : Nat) (newPolicyId : Nat) : BpSecPolicyFilter :=
  Internal_AddPolicyFilterToThisFilter securitySourceEidUri root (fun f1 =>
    Internal_AddPolicyFilterToThisFilter bundleSourceEidUri f1 (fun f2 =>
      Internal_AddPolicyFilterToThisFilter bundleFinalDestEidUri f2 (fun f3 =>
        if role < RESERVED_MAX_ROLE_TYPES ∧ f3.m_policiesByRoleArray.getD role none = none
        then
          .mk f3.m_eidToNextFilterMap f3.m_nodeIdToNextFilterMap f3.m_anyEidToNextFilterPtr
            (f3.m_policiesByRoleArray.set role (some newPolicyId))
        else f3)))

/-- `PolicySearchCache` (constructor at lines 87-93: EIDs zeroed, role
`RESERVED_MAX_ROLE_TYPES`, no hit, no policy). -/
structure PolicySearchCache where
  securitySourceEid : cbhe_eid_t
  bundleSourceEid : cbhe_eid_t
  bundleFinalDestEid : cbhe_eid_t
  role : Nat
  wasCacheHit : Bool
  foundPolicy : Option Nat
deriving Repr, DecidableEq

def PolicySearchCache.init : PolicySearchCache :=
  { securitySourceEid := (0, 0)
    bundleSourceEid := (0, 0)
    bundleFinalDestEid := (0, 0)
    role := RESERVED_MAX_ROLE_TYPES
    wasCacheHit := false
    foundPolicy := none }

/-- `BpSecPolicyManager::FindPolicyWithCacheSupport` (lines 218-243).  The
third component of the result records whether the trie walk (`FindPolicy`)
was executed — the "instrumented counter" of the spec; both same-key branches
return without walking. -/
def FindPolicyWithCacheSupport (root : BpSecPolicyFilter)
    (securitySourceEid bundleSourceEid bundleFinalDestEid : cbhe_eid_t)
    (role : Nat) (searchCache : PolicySearchCache) :
    Option Nat × PolicySearchCache × Bool :=
  let c := { searchCache with wasCacheHit := false }
  if role = c.role ∧ securitySourceEid = c.securitySourceEid ∧
      bundleSourceEid = c.bundleSourceEid ∧ bundleFinalDestEid = c.bundleFinalDestEid then
    match c.foundPolicy with
    | some p => (some p, { c with wasCacheHit := true }, false)
    | none => (none, c, false)
  else
    let found := FindPolicy root securitySourceEid bundleSourceEid bundleFinalDestEid role
    (found,
      { c with
        foundPolicy := found
        role := role
        securitySourceEid := securitySourceEid
        bundleSourceEid := bundleSourceEid
        bundleFinalDestEid := bundleFinalDestEid },
      true)

/-! ### Failure-event dispatch (`DoFailureEvent`, lines 377-568) -/

/-- The error codes produced by the cryptographic bundle processor that
`DoFailureEvent` distinguishes. -/
inductive BPSEC_ERROR_CODES where
  | CORRUPTED
  | MISCONFIGURED
  | MISSING
deriving Repr, DecidableEq

/-- One per-target error of the processor's error list:
`(m_errorCode, m_securityTargetIndex)`, `UINT64_MAX` index meaning every
target. -/
structure BpSecError where
  m_errorCode : BPSEC_ERROR_CODES
  m_securityTargetIndex : Nat
deriving Repr, DecidableEq

/-- The failure event kinds looked up in the event set. -/
inductive BPSEC_SECURITY_FAILURE_EVENT where
  | UNDEFINED
  | SECURITY_OPERATION_CORRUPTED_AT_ACCEPTOR
  | SECURITY_OPERATION_MISCONFIGURED_AT_ACCEPTOR
  | SECURITY_OPERATION_CORRUPTED_AT_VERIFIER
  | SECURITY_OPERATION_MISCONFIGURED_AT_VERIFIER
deriving Repr, DecidableEq

/-- The action mask attached to one event entry. -/
structure ActionMasks where
  FAIL_BUNDLE_FORWARDING : Bool
  REMOVE_SECURITY_OPERATION : Bool
  REMOVE_SECURITY_OPERATION_TARGET_BLOCK : Bool
deriving Repr, DecidableEq

/-- `m_eventTypeToEventSetPtrLut`: event kind to optional action mask
(a null entry means no actions are specified for the event). -/
abbrev event_type_to_event_set_ptr_lut_t := BPSEC_SECURITY_FAILURE_EVENT → Option ActionMasks

/-- The mutable view of an abstract security block that `DoFailureEvent`
touches: target and result arrays and the block-view flags. -/
structure AsbBlockState where
  m_securityTargets : List Nat
  m_securityResults : List Nat
  markedForDeletion : Bool
  manuallyModified : Bool
deriving Repr, DecidableEq

/-- The canonical blocks of the bundle as `(blockNumber, markedForDeletion)`
pairs (block numbers are unique within a bundle view). -/
structure BundleBlocksState where
  canonicalBlocks : List (Nat × Bool)
deriving Repr, DecidableEq

/-- `RemoveSopByGreatestToLeastIndex` (lines 258-285): index `UINT64_MAX`
marks the whole ASB for deletion; otherwise erase the target/result pair at
`i` (failing on mismatched arrays or an out-of-range index), marking the ASB
for deletion when its last operation is removed. -/
def RemoveSopByGreatestToLeastIndex (asb : AsbBlockState) (i : Nat) :
    Option AsbBlockState :=
  if i = U64MAX then some { asb with markedForDeletion := true }
  else if asb.m_securityTargets.length ≠ asb.m_securityResults.length then none
  else if asb.m_securityTargets.length ≤ i then none
  else
    let targets' := asb.m_securityTargets.eraseIdx i
    some { asb with
      m_securityTargets := targets'
      m_securityResults := asb.m_securityResults.eraseIdx i
      markedForDeletion := if targets' = [] then true else asb.markedForDeletion
      manuallyModified := true }

/-- Mark the canonical block with the given number for deletion
(`GetCanonicalBlockByBlockNumber(n)->markedForDeletion = true`). -/
def markBlockForDeletion (blocks : List (Nat × Bool)) (blockNumber : Nat) :
    List (Nat × Bool) :=
  blocks.map (fun p => if p.1 = blockNumber then (p.1, true) else p)

/-- `RemoveSopTargetBlock` (lines 288-306): canonical index `UINT64_MAX`
marks every block currently targeted by the ASB; otherwise mark the one
block. -/
def RemoveSopTargetBlock (bundle : BundleBlocksState) (asbTargets : List Nat)
    (canonicalIndex : Nat) : BundleBlocksState :=
  if canonicalIndex = U64MAX then
    ⟨asbTargets.foldl (fun bs t => markBlockForDeletion bs t) bundle.canonicalBlocks⟩
  else
    ⟨markBlockForDeletion bundle.canonicalBlocks canonicalIndex⟩

/-- Derivation of the failure event kind from `(role, errorCode)`
(lines 427-436 and 495-504): only CORRUPTED and MISCONFIGURED map to
events; anything else stays UNDEFINED. -/
def deriveFailureEvent (isAcceptor : Bool) (errorCode : BPSEC_ERROR_CODES) :
    BPSEC_SECURITY_FAILURE_EVENT :=
  match errorCode, isAcceptor with
  | .CORRUPTED, true => .SECURITY_OPERATION_CORRUPTED_AT_ACCEPTOR
  | .MISCONFIGURED, true => .SECURITY_OPERATION_MISCONFIGURED_AT_ACCEPTOR
  | .CORRUPTED, false => .SECURITY_OPERATION_CORRUPTED_AT_VERIFIER
  | .MISCONFIGURED, false => .SECURITY_OPERATION_MISCONFIGURED_AT_VERIFIER
  | _, _ => .UNDEFINED

/-- Processing of one error of the list by `DoFailureEvent`'s loop body
(lines 386-566).  `none` is a `return false` (the bundle is dropped);
`some` carries the updated ASB and bundle state. -/
def doFailureEventStep (evtLut : event_type_to_event_set_ptr_lut_t)
    (isAcceptor isIntegrity : Bool) (thisError : BpSecError)
    (asb : AsbBlockState) (bundle : BundleBlocksState) :
    Option (AsbBlockState × BundleBlocksState) :=
  let canonicalIndex :=
    if thisError.m_securityTargetIndex = U64MAX then U64MAX
    else (asb.m_securityTargets.get? thisError.m_securityTargetIndex).getD 0
  let errorTargetsPayloadBlock := canonicalIndex = 1 ∨ canonicalIndex = U64MAX
  if isAcceptor then
    -- BCB pre-step (lines 397-425): payload drop, or eager SOp/target removal
    let preStep : Option (AsbBlockState × BundleBlocksState × Bool) :=
      if ¬isIntegrity then
        if errorTargetsPayloadBlock then none
        else
          match RemoveSopByGreatestToLeastIndex asb thisError.m_securityTargetIndex with
          | none => none
          | some asb₁ =>
            some (asb₁, RemoveSopTargetBlock bundle asb₁.m_securityTargets canonicalIndex,
              true)
      else some (asb, bundle, false)
    match preStep with
    | none => none
    | some (asb₁, bundle₁, removedAlready) =>
      match evtLut (deriveFailureEvent true thisError.m_errorCode) with
      | none => none
      | some actionMask =>
        let sopRemoved : Option AsbBlockState :=
          if ¬removedAlready then
            RemoveSopByGreatestToLeastIndex asb₁ thisError.m_securityTargetIndex
          else some asb₁
        match sopRemoved with
        | none => none
        | some asb₂ =>
          if actionMask.FAIL_BUNDLE_FORWARDING then none
          else if actionMask.REMOVE_SECURITY_OPERATION_TARGET_BLOCK then
            if errorTargetsPayloadBlock then none
            else if ¬removedAlready then
              some (asb₂, RemoveSopTargetBlock bundle₁ asb₂.m_securityTargets canonicalIndex)
            else some (asb₂, bundle₁)
          else some (asb₂, bundle₁)
  else
    match evtLut (deriveFailureEvent false thisError.m_errorCode) with
    | none => none
    | some actionMask =>
      let sopRemoved : Option AsbBlockState :=
        if actionMask.REMOVE_SECURITY_OPERATION then
          RemoveSopByGreatestToLeastIndex asb thisError.m_securityTargetIndex
        else some asb
      match sopRemoved with
      | none => none
      | some asb₁ =>
        if actionMask.FAIL_BUNDLE_FORWARDING then none
        else if actionMask.REMOVE_SECURITY_OPERATION_TARGET_BLOCK then
          if errorTargetsPayloadBlock then none
          else some (asb₁, RemoveSopTargetBlock bundle asb₁.m_securityTargets canonicalIndex)
        else some (asb₁, bundle)

/-- `DoFailureEvent` (lines 377-568): fold the loop body over the error
list; `none` means the bundle is dropped, `some` that processing continues
with the bundle kept. -/
def DoFailureEvent (evtLut : event_type_to_event_set_ptr_lut_t)
    (isAcceptor isIntegrity : Bool) :
    List BpSecError → AsbBlockState → BundleBlocksState →
    Option (AsbBlockState × BundleBlocksState)
  | [], asb, bundle => some (asb, bundle)
  | thisError :: rest, asb, bundle =>
    match doFailureEventStep evtLut isAcceptor isIntegrity thisError asb bundle with
    | none => none
    | some (asb', bundle') => DoFailureEvent evtLut isAcceptor isIntegrity rest asb' bundle'

/-! ### Outgoing pipeline (`PopulateTargetArraysForSecuritySource` and
`ProcessOutgoingBundle`, lines 797-961) -/

/-- BPv7 canonical block type codes used by the code (RFC 9171/9172 values:
payload block 1, BIB 11, BCB 12). -/
def BPV7_BLOCK_TYPE_CODE_PAYLOAD : Nat := 1

def BPV7_BLOCK_TYPE_CODE_INTEGRITY : Nat := 11

/-- A canonical block view as seen by the outgoing pipeline. -/
structure CanonicalBlock where
  m_blockNumber : Nat
  m_blockType : Nat
deriving Repr, DecidableEq

/-- The canonical-block list of a `BundleViewV7` (the primary block precedes
the list; "immediately after the primary block" is the front). -/
structure BundleViewV7 where
  m_listCanonicalBlockView : List CanonicalBlock
deriving Repr, DecidableEq

/-- `BundleViewV7::GetCanonicalBlocksByType`. -/
def GetCanonicalBlocksByType (bv : BundleViewV7) (blockType : Nat) :
    List CanonicalBlock :=
  bv.m_listCanonicalBlockView.filter (fun b => b.m_blockType = blockType)

/-- The outgoing-relevant fields of `BpSecPolicy`; the block-type target
fragment sets are expanded to their ascending lists of block types. -/
structure BpSecPolicy where
  m_doIntegrity : Bool
  m_doConfidentiality : Bool
  m_bibBlockTypeTargets : List Nat
  m_bcbBlockTypeTargets : List Nat
deriving Repr, DecidableEq

/-- The target arrays of `BpSecPolicyProcessingContext` filled by
`PopulateTargetArraysForSecuritySource`. -/
structure BpSecPolicyProcessingContext where
  m_bibTargetBlockNumbers : List Nat
  m_bcbTargetBlockNumbers : List Nat
  m_bcbTargetBibBlockNumberPlaceholderIndex : Nat
deriving Repr, DecidableEq

/-- `BpSecPolicyManager::PopulateTargetArraysForSecuritySource` (lines
797-856): collect block numbers of matching canonical blocks for the BIB
targets; for the BCB targets do the same except that the integrity block
type reserves a zero placeholder and records its position. -/
def PopulateTargetArraysForSecuritySource (bv : BundleViewV7)
    (policy : BpSecPolicy) : BpSecPolicyProcessingContext :=
  let bib :=
    if policy.m_doIntegrity then
      policy.m_bibBlockTypeTargets.foldl (fun ns t =>
        ns ++ (GetCanonicalBlocksByType bv t).map (·.m_blockNumber)) []
    else []
  let bcbPair :=
    if policy.m_doConfidentiality then
      policy.m_bcbBlockTypeTargets.foldl (fun acc t =>
        if t = BPV7_BLOCK_TYPE_CODE_INTEGRITY then
          (acc.1 ++ [0], acc.1.length)
        else
          (acc.1 ++ (GetCanonicalBlocksByType bv t).map (·.m_blockNumber), acc.2))
        ([], U64MAX)
    else ([], U64MAX)
  { m_bibTargetBlockNumbers := bib
    m_bcbTargetBlockNumbers := bcbPair.1
    m_bcbTargetBibBlockNumberPlaceholderIndex := bcbPair.2 }

/-- The two calls into the cryptographic bundle processor made by
`ProcessOutgoingBundle`, abstracted over the bundle and the target block
numbers (`BpSecBundleProcessor` is not among the provided sources; key
material, variants, masks and the IV are passed through unchanged and do
not influence the ordering and backfill behaviour under verification). -/
structure BpSecBundleProcessorOps where
  TryAddBundleIntegrity : BundleViewV7 → List Nat → Option BundleViewV7
  TryEncryptBundle : BundleViewV7 → List Nat → Option BundleViewV7

/-- `BpSecPolicyManager::ProcessOutgoingBundle` (lines 908-961): add the BIB
first (the processor places it immediately after the primary block), then
overwrite the recorded BCB placeholder slot with the front canonical block's
number (line 934), then add the BCB; a `none` from either processor call
aborts with `none` (the C++ `return false`). -/
def ProcessOutgoingBundle (ops : BpSecBundleProcessorOps) (bv : BundleViewV7)
    (ctx : BpSecPolicyProcessingContext) (policy : BpSecPolicy) :
    Option BundleViewV7 :=
  let step1 : Option (BundleViewV7 × List Nat) :=
    if policy.m_doIntegrity then
      match ops.TryAddBundleIntegrity bv ctx.m_bibTargetBlockNumbers with
      | none => none
      | some bv₁ =>
        let bcbTargets :=
          if ctx.m_bcbTargetBibBlockNumberPlaceholderIndex ≠ U64MAX then
            ctx.m_bcbTargetBlockNumbers.set
              ctx.m_bcbTargetBibBlockNumberPlaceholderIndex
              ((bv₁.m_listCanonicalBlockView.headD ⟨0, 0⟩).m_blockNumber)
          else ctx.m_bcbTargetBlockNumbers
        some (bv₁, bcbTargets)
    else some (bv, ctx.m_bcbTargetBlockNumbers)
  match step1 with
  | none => none
  | some (bv₁, bcbTargets) =>
    if policy.m_doConfidentiality then
      ops.TryEncryptBundle bv₁ bcbTargets
    else some bv₁

/-- The record written by `PushSegment` for logical segment `j` of bundle
`b` stored over `chain`. -/
def segRecord (b chain : List Nat) (j : Nat) : StoredSegment :=
  ⟨if j = 0 then b.length else U64MAX,
   if j + 1 = chain.length then U32MAX else chain.getD (j + 1) 0,
   segmentSlice b j⟩

/-- The complete C1 pipeline on an initially empty store: `Push`, one
`PushSegment` per segment, `PopTop` on the destination, `TopSegment` for
every segment, then `RemoveReadBundleFromDisk` without force.  Returns the
segment count, the byte blocks handed back by the reads, the remove result
and the final memory-manager used-set. -/
def storeRoundTrip (maxSegments numDisks : Nat) (primary : Bpv6PrimaryBlock)
    (b : List Nat) : Option (Nat × List (List Nat) × Bool × Finset Nat) :=
  match Push (emptyStore maxSegments numDisks) primary b.length with
  | none => none
  | some (totalSegmentsRequired, session, bsm₁) =>
    match PushAllSegments bsm₁ session b with
    | none => none
    | some bsm₂ =>
      match PopTop bsm₂ [primary.dst_node] with
      | none => none
      | some (rsession, bsm₃) =>
        match ReadAllSegments bsm₃ rsession with
        | none => none
        | some (reads, rsession') =>
          let removed := RemoveReadBundleFromDisk bsm₃ rsession' false
          some (totalSegmentsRequired, reads, removed.1, removed.2.m_memoryManager)

/-- The catalog bucket for `(destination, priority, expiration)`: the LIFO
forward list at `m_destMap[dst][pi][exp]` (empty when any level is
absent). -/
def bucketAt (dm : destination_map_t) (dst pi exp : Nat) : chain_info_flist_t :=
  match dm.lookup dst with
  | none => []
  | some pa => (((pa.get? pi).getD []).lookup exp).getD []

/-- The expiration map for `(destination, priority)` (empty when either level
is absent). -/
def emAt (dm : destination_map_t) (dst pi : Nat) : expiration_map_t :=
  match dm.lookup dst with
  | none => []
  | some pa => (pa.get? pi).getD []

/-- Well-formedness of an expiration map as maintained by `std::map`:
strictly increasing keys (so the head is `begin()`, the least key), no empty
bucket (buckets are created by `push_front` and erased when emptied), and
every absolute expiration below the `UINT64_MAX` sentinel (it is a `uint64`
sum used against the scan's initial `lowestExpiration`). -/
def ExpirationMapWF (em : expiration_map_t) : Prop :=
  (em.map Prod.fst).Chain' (· < ·) ∧ ∀ p ∈ em, p.2 ≠ [] ∧ p.1 < U64MAX

/-- A priority array has exactly `NUMBER_OF_PRIORITIES` entries, all
well-formed. -/
def PriorityArrayWF (pa : priority_array_t) : Prop :=
  pa.length = NUMBER_OF_PRIORITIES ∧ ∀ em ∈ pa, ExpirationMapWF em

/-- Catalog well-formedness. -/
def CatalogWF (dm : destination_map_t) : Prop :=
  ∀ p ∈ dm, PriorityArrayWF p.2

/-- Witness for C5 at a concrete store and an incompletely read session. -/
def bsmC5 : BundleStorageManagerBase :=
  { M_MAX_SEGMENTS := 8
    M_NUM_STORAGE_DISKS := 1
    m_memoryManager := {0, 1}
    m_destMap := []
    disk := [(0, ⟨2, 1, [10]⟩), (1, ⟨U64MAX, U32MAX, [11]⟩)] }

def sessC5 : BundleStorageManagerSession_ReadFromDisk :=
  { chainInfo := ⟨2, [0, 1]⟩
    nextLogicalSegment := 1
    destLinkId := 5
    priorityIndex := 1
    absExpiration := 100 }

/-- A failure event set with no entry for any event. -/
def evtLutC4 : event_type_to_event_set_ptr_lut_t := fun _ => none

/-- A failure event set mapping the corrupted-at-acceptor and
corrupted-at-verifier events to an empty action mask. -/
def evtLutC4w : event_type_to_event_set_ptr_lut_t := fun e =>
  match e with
  | .SECURITY_OPERATION_CORRUPTED_AT_ACCEPTOR => some ⟨false, false, false⟩
  | .SECURITY_OPERATION_CORRUPTED_AT_VERIFIER => some ⟨false, false, false⟩
  | _ => none

def asbC4 : AsbBlockState := ⟨[2], [9], false, false⟩

def asbC4p : AsbBlockState := ⟨[1], [9], false, false⟩

def bundleC4 : BundleBlocksState := ⟨[(1, false), (2, false)]⟩

/-- The example trie of C7: policies for security source `ipn:1.1` (exact),
`ipn:1.*` (node wildcard) and `ipn:*.*` (any), each with any bundle source
and any final destination, all for role index 2. -/
def trieC7 : BpSecPolicyFilter :=
  CreateOrGetNewPolicy
    (CreateOrGetNewPolicy
      (CreateOrGetNewPolicy emptyPolicyFilter (.full 1 1) .anyEid .anyEid 2 101)
      (.anyService 1) .anyEid .anyEid 2 102)
    .anyEid .anyEid .anyEid 2 103

/-- The exact-map child of the example trie's root for `(1,1)`. -/
def trieC7child : BpSecPolicyFilter :=
  (assocLookup trieC7.m_eidToNextFilterMap (1, 1)).getD emptyPolicyFilter

/-- The cache stores the result that `FindPolicy` would produce for the
cache's stored key (this holds for the freshly constructed cache because its
role is `RESERVED_MAX_ROLE_TYPES`, for which `FindPolicy` returns nothing). -/
def cacheConsistent (root : BpSecPolicyFilter) (c : PolicySearchCache) : Prop :=
  c.foundPolicy =
    FindPolicy root c.securitySourceEid c.bundleSourceEid c.bundleFinalDestEid c.role

/-- A small trie for the C8 witness. -/
def trieC8 : BpSecPolicyFilter :=
  CreateOrGetNewPolicy emptyPolicyFilter (.full 1 1) (.full 2 2) (.full 3 3) 1 7

/-- The decoder of the C3 counterexample: it decodes exactly the payload of
the valid one-segment bundle stored at segment 1 and fails on everything
else, in particular on the all-zero payload of the zeroed segment 0. -/
def decodeC3 : List Nat → Option Bpv6PrimaryBlock := fun payload =>
  if payload.take 5 = [9, 9, 9, 9, 9] then some ⟨0, 7, 0, 3⟩ else none

/-- The C3 counterexample disk (one disk, two segments in the file):
segment 0 was never written (reads back zeroed) and segment 1 holds a valid
one-segment bundle head of 5 bytes. -/
def diskC3 : List (Nat × StoredSegment) :=
  [(1, ⟨5, U32MAX, [9, 9, 9, 9, 9]⟩)]

/-- The BCB-target collection step of `PopulateTargetArraysForSecuritySource`
(the fold body of lines 827-852). -/
def bcbTargetFoldStep (bv : BundleViewV7) (acc : List Nat × Nat) (t : Nat) :
    List Nat × Nat :=
  if t = BPV7_BLOCK_TYPE_CODE_INTEGRITY then (acc.1 ++ [0], acc.1.length)
  else (acc.1 ++ (GetCanonicalBlocksByType bv t).map (·.m_blockNumber), acc.2)

/-- The placeholder invariant: the recorded index points at a reserved zero
slot of the target array. -/
def placeholderInv (ns : List Nat) (ph : Nat) : Prop :=
  ph < ns.length ∧ ns.get? ph = some 0

/-- C6 witness scenario (the spec's S6 shape): a bundle with a payload
block (number 1), a policy with BIB targets `{payload}` and BCB targets
`{payload, integrity}`, and a processor that prepends the new BIB as block
number 3 and accepts encryption. -/
def bvC6 : BundleViewV7 := ⟨[⟨1, 1⟩]⟩

def policyC6 : BpSecPolicy := ⟨true, true, [1], [1, 11]⟩

def opsC6 : BpSecBundleProcessorOps :=
  { TryAddBundleIntegrity := fun bv _ => some ⟨⟨3, 11⟩ :: bv.m_listCanonicalBlockView⟩
    TryEncryptBundle := fun bv _ => some bv }

def ctxC6 : BpSecPolicyProcessingContext :=
  PopulateTargetArraysForSecuritySource bvC6 policyC6

/-- The restriction of the catalog to the caller's available destination
links, as built at the top of `PopTop` (the `availableDestLinksPtrsVec`). -/
def popTopPairs (bsm : BundleStorageManagerBase) (links : List Nat) :
    List (Nat × priority_array_t) :=
  links.filterMap (fun link =>
    (bsm.m_destMap.lookup link).map (fun pa => (link, pa)))

def ciC2a : chain_info_t := ⟨4076, [0]⟩

def ciC2b : chain_info_t := ⟨4076, [1]⟩

/-- A two-bundle catalog for destination 1: an expedited (priority 2) chain
expiring at 200 and a bulk (priority 0) chain expiring at 10. -/
def dmC2 : destination_map_t := [(1, [[(10, [ciC2b])], [], [(200, [ciC2a])]])]

def bsmC2 : BundleStorageManagerBase := ⟨16, 1, ∅, dmC2, []⟩

def s1C2 : BundleStorageManagerSession_ReadFromDisk := ⟨ciC2a, 0, 1, 2, 200⟩

def bsmC2a : BundleStorageManagerBase :=
  ⟨16, 1, ∅, [(1, [[(10, [ciC2b])], [], []])], []⟩

def s2C2 : BundleStorageManagerSession_ReadFromDisk := ⟨ciC2b, 0, 1, 0, 10⟩

def bsmC2b : BundleStorageManagerBase := ⟨16, 1, ∅, [(1, [[], [], []])], []⟩

def ciC9 : chain_info_t := ⟨4076, [2]⟩

/-- A store whose only cataloged chain is for destination 9. -/
def bsmC9 : BundleStorageManagerBase :=
  ⟨16, 1, ∅, [(9, [[(10, [ciC9])], [], []])], []⟩


/-! ## Theorems: supporting lemmas and claim theorems -/

theorem totalSegments_pos (n : Nat) (h : 1 ≤ n) :
    1 ≤ totalSegmentsRequiredFor n := by
  simp only [totalSegmentsRequiredFor, BUNDLE_STORAGE_PER_SEGMENT_SIZE] at *
  by_cases hr : n % 4076 = 0 <;> simp [hr] <;> omega

theorem totalSegments_lower (n : Nat) (h : 1 ≤ n) :
    (totalSegmentsRequiredFor n - 1) * BUNDLE_STORAGE_PER_SEGMENT_SIZE < n := by
  simp only [totalSegmentsRequiredFor, BUNDLE_STORAGE_PER_SEGMENT_SIZE] at *
  by_cases hr : n % 4076 = 0 <;> simp [hr] <;> omega

theorem totalSegments_upper (n : Nat) :
    n ≤ totalSegmentsRequiredFor n * BUNDLE_STORAGE_PER_SEGMENT_SIZE := by
  simp only [totalSegmentsRequiredFor, BUNDLE_STORAGE_PER_SEGMENT_SIZE]
  by_cases hr : n % 4076 = 0 <;> simp [hr] <;> omega

theorem totalSegments_last (n : Nat) (h : 1 ≤ n) :
    n - (totalSegmentsRequiredFor n - 1) * BUNDLE_STORAGE_PER_SEGMENT_SIZE =
      if n % BUNDLE_STORAGE_PER_SEGMENT_SIZE = 0 then BUNDLE_STORAGE_PER_SEGMENT_SIZE
      else n % BUNDLE_STORAGE_PER_SEGMENT_SIZE := by
  simp only [totalSegmentsRequiredFor, BUNDLE_STORAGE_PER_SEGMENT_SIZE] at *
  by_cases hr : n % 4076 = 0 <;> simp [hr] <;> omega

/-- The code's segment-count formula is the ceiling division of the claim. -/
theorem totalSegmentsRequiredFor_eq_ceil (n : Nat) :
    totalSegmentsRequiredFor n =
      (n + BUNDLE_STORAGE_PER_SEGMENT_SIZE - 1) / BUNDLE_STORAGE_PER_SEGMENT_SIZE := by
  simp only [totalSegmentsRequiredFor, BUNDLE_STORAGE_PER_SEGMENT_SIZE]
  by_cases hr : n % 4076 = 0 <;> simp [hr] <;> omega

/-- Smallest-ID-first allocation from the empty used-set yields the IDs
`0..n-1`. -/
theorem allocate_empty (maxSegments n : Nat) (h : n ≤ maxSegments) :
    AllocateSegments_ThreadSafe maxSegments ∅ n =
      some (List.range n, (List.range n).toFinset) := by
  unfold AllocateSegments_ThreadSafe
  have hfilter : (List.range maxSegments).filter
      (fun i => decide (i ∉ (∅ : Finset Nat))) = List.range maxSegments := by
    apply List.filter_eq_self.mpr
    intro a _
    simp
  simp only [hfilter, List.length_range, h, if_pos, List.take_range,
    Nat.min_eq_left h, Finset.empty_union]

/-- Catalog insertion into the empty map with a valid priority index. -/
theorem catalogInsert_nil (dst pi exp : Nat) (ci : chain_info_t)
    (hpi : pi < NUMBER_OF_PRIORITIES) :
    catalogInsert [] dst pi exp ci =
      some [(dst, priority_array_new.set pi [(exp, [ci])])] := by
  simp only [NUMBER_OF_PRIORITIES] at hpi
  interval_cases pi <;>
    simp [catalogInsert, assocUpdate, expMapPushFront, priority_array_new,
      NUMBER_OF_PRIORITIES]

/-- Distinct positions of a duplicate-free chain hold distinct segment
IDs. -/
theorem nodup_getD_ne (chain : List Nat) (hnd : chain.Nodup) (i j : Nat)
    (hi : i < chain.length) (hj : j < chain.length) (hne : i ≠ j) :
    chain.getD i 0 ≠ chain.getD j 0 := by
  rw [List.getD_eq_getElem?_getD, List.getElem?_eq_getElem hi,
    List.getD_eq_getElem?_getD, List.getElem?_eq_getElem hj]
  simp only [Option.getD_some]
  intro h
  exact hne ((List.Nodup.getElem_inj_iff hnd).mp h)

theorem diskRead_cons_self (d : List (Nat × StoredSegment)) (k : Nat)
    (s : StoredSegment) : diskRead ((k, s) :: d) k = some s := by
  simp [diskRead, List.lookup]

theorem diskRead_cons_ne (d : List (Nat × StoredSegment)) (k id : Nat)
    (s : StoredSegment) (h : k ≠ id) : diskRead ((k, s) :: d) id = diskRead d id := by
  have hb : (id == k) = false := beq_eq_false_iff_ne.mpr (Ne.symm h)
  simp [diskRead, List.lookup, hb]

/-- Driving `PushSegment` once per remaining segment with the matching
slices of `b` writes exactly the per-segment records to disk, leaves the
memory manager alone, and inserts the chain at the catalog position of the
session on the final segment. -/
theorem pushSegmentsFrom_spec (b chain : List Nat) (dst pi exp : Nat)
    (hpi : pi < NUMBER_OF_PRIORITIES) (hnd : chain.Nodup) :
    ∀ n i bsm, n + i = chain.length → i < chain.length →
    ∃ bsm' : BundleStorageManagerBase,
      pushSegmentsFrom n bsm ⟨⟨b.length, chain⟩, i, dst, pi, exp⟩ b = some bsm' ∧
      catalogInsert bsm.m_destMap dst pi exp ⟨b.length, chain⟩ =
        some bsm'.m_destMap ∧
      bsm'.m_memoryManager = bsm.m_memoryManager ∧
      bsm'.M_MAX_SEGMENTS = bsm.M_MAX_SEGMENTS ∧
      bsm'.M_NUM_STORAGE_DISKS = bsm.M_NUM_STORAGE_DISKS ∧
      (∀ j, i ≤ j → j < chain.length →
        diskRead bsm'.disk (chain.getD j 0) = some (segRecord b chain j)) ∧
      (∀ id, (∀ j, i ≤ j → j < chain.length → chain.getD j 0 ≠ id) →
        diskRead bsm'.disk id = diskRead bsm.disk id) := by
  intro n
  induction n with
  | zero => intro i bsm h0 hi; omega
  | succ m ih =>
    intro i bsm hni hi
    by_cases hlast : i + 1 = chain.length
    · -- final segment: the catalog insertion happens and the loop stops
      have hm : m = 0 := by omega
      subst hm
      refine ⟨{ bsm with
          m_destMap := assocUpdate bsm.m_destMap dst priority_array_new (fun pa =>
            pa.set pi (expMapPushFront ((pa.get? pi).getD []) exp ⟨b.length, chain⟩))
          disk := (chain.getD i 0, segRecord b chain i) :: bsm.disk }, ?_, ?_, rfl, rfl,
          rfl, ?_, ?_⟩
      · simp [pushSegmentsFrom, PushSegment, hi, hlast, catalogInsert, hpi, segRecord,
          segmentSlice]
      · simp [catalogInsert, hpi]
      · intro j hij hjl
        have hj : j = i := by omega
        subst hj
        exact diskRead_cons_self _ _ _
      · intro id hid
        exact diskRead_cons_ne _ _ _ _ (hid i le_rfl hi)
    · -- middle segment: write the record and recurse
      have hi1 : i + 1 < chain.length := by omega
      have hm : m + (i + 1) = chain.length := by omega
      obtain ⟨bsm'', hrun, hcat, hmem, hmax, hnum, hread, hframe⟩ :=
        ih (i + 1) { bsm with
          disk := (chain.getD i 0, segRecord b chain i) :: bsm.disk } hm hi1
      refine ⟨bsm'', ?_, hcat, hmem, hmax, hnum, ?_, ?_⟩
      · simp only [pushSegmentsFrom]
        have hpush : PushSegment bsm ⟨⟨b.length, chain⟩, i, dst, pi, exp⟩
            (segmentSlice b i) = some (true,
              { bsm with disk := (chain.getD i 0, segRecord b chain i) :: bsm.disk },
              ⟨⟨b.length, chain⟩, i + 1, dst, pi, exp⟩) := by
          simp [PushSegment, hi, hlast, segRecord, segmentSlice]
        rw [hpush]
        exact hrun
      · intro j hij hjl
        rcases Nat.eq_or_lt_of_le hij with hji | hji
        · rw [hframe (chain.getD j 0) ?_]
          · rw [← hji]
            exact diskRead_cons_self _ _ _
          · intro j' hj'1 hj'2
            exact nodup_getD_ne chain hnd j' j hj'2 hjl (by omega)
        · exact hread j hji hjl
      · intro id hid
        rw [hframe id (fun j h1 h2 => hid j (by omega) h2)]
        exact diskRead_cons_ne _ _ _ _ (hid i le_rfl hi)

/-- `PopTop` on a catalog holding exactly one chain for the requested
destination detaches that chain (the expiration bucket is erased because it
becomes empty). -/
theorem popTop_singleton (bsm : BundleStorageManagerBase) (dst pi exp : Nat)
    (ci : chain_info_t) (hpi : pi < NUMBER_OF_PRIORITIES) (hexp : exp < U64MAX)
    (hdm : bsm.m_destMap = [(dst, priority_array_new.set pi [(exp, [ci])])]) :
    PopTop bsm [dst] = some
      (⟨ci, 0, dst, pi, exp⟩,
        { bsm with m_destMap := [(dst, priority_array_new.set pi [])] }) := by
  simp only [NUMBER_OF_PRIORITIES] at hpi
  interval_cases pi <;>
    simp [PopTop, hdm, popTopLoop, popTopAtPriority, popTopScanPriority,
      popTopScanGo, priority_array_new, NUMBER_OF_PRIORITIES, List.lookup,
      hexp, expMapPopFront, assocUpdate]

/-- Reading the remaining segments of a session whose chain records are on
disk returns exactly the per-segment slices of the bundle. -/
theorem readSegmentsFrom_spec (bsm : BundleStorageManagerBase) (b chain : List Nat)
    (dst pi exp : Nat)
    (hk : chain.length = totalSegmentsRequiredFor b.length)
    (hb : 1 ≤ b.length)
    (hdisk : ∀ j, j < chain.length →
      diskRead bsm.disk (chain.getD j 0) = some (segRecord b chain j))
    (hids : ∀ j, j < chain.length → chain.getD j 0 ≠ U32MAX) :
    ∀ n i, i + n = chain.length →
    readSegmentsFrom n bsm ⟨⟨b.length, chain⟩, i, dst, pi, exp⟩ =
      some ((List.range' i n).map (segmentSlice b),
        ⟨⟨b.length, chain⟩, chain.length, dst, pi, exp⟩) := by
  intro n
  induction n with
  | zero =>
    intro i hi
    simp only [Nat.add_zero] at hi
    subst hi
    simp [readSegmentsFrom]
  | succ m ih =>
    intro i hi
    have hilt : i < chain.length := by omega
    have hget : chain.get? i = some (chain.getD i 0) := by
      rw [List.get?_eq_getElem?, List.getD_eq_getElem?_getD, List.getElem?_eq_getElem hilt]
      rfl
    have hd := hdisk i hilt
    have htop : TopSegment bsm ⟨⟨b.length, chain⟩, i, dst, pi, exp⟩ =
        some ((segRecord b chain i).payload.take
          (if (segRecord b chain i).nextSegmentId = U32MAX then
            (if b.length % BUNDLE_STORAGE_PER_SEGMENT_SIZE ≠ 0 then
              b.length % BUNDLE_STORAGE_PER_SEGMENT_SIZE
            else BUNDLE_STORAGE_PER_SEGMENT_SIZE)
          else BUNDLE_STORAGE_PER_SEGMENT_SIZE),
          ⟨⟨b.length, chain⟩, i + 1, dst, pi, exp⟩) := by
      simp only [TopSegment, hget, Option.some_bind, hd]
    have hsz : (segRecord b chain i).payload.take
        (if (segRecord b chain i).nextSegmentId = U32MAX then
          (if b.length % BUNDLE_STORAGE_PER_SEGMENT_SIZE ≠ 0 then
            b.length % BUNDLE_STORAGE_PER_SEGMENT_SIZE
          else BUNDLE_STORAGE_PER_SEGMENT_SIZE)
        else BUNDLE_STORAGE_PER_SEGMENT_SIZE) = segmentSlice b i := by
      by_cases hl : i + 1 = chain.length
      · have hnext : (segRecord b chain i).nextSegmentId = U32MAX := by
          simp [segRecord, hl]
        rw [hnext, if_pos rfl,
          show (segRecord b chain i).payload = segmentSlice b i from rfl]
        apply List.take_of_length_le
        have hieq : i = totalSegmentsRequiredFor b.length - 1 := by omega
        have h1 := totalSegments_upper b.length
        have h2 : (totalSegmentsRequiredFor b.length - 1) *
            BUNDLE_STORAGE_PER_SEGMENT_SIZE =
            totalSegmentsRequiredFor b.length * BUNDLE_STORAGE_PER_SEGMENT_SIZE -
              BUNDLE_STORAGE_PER_SEGMENT_SIZE := Nat.sub_one_mul _ _
        have h3 : BUNDLE_STORAGE_PER_SEGMENT_SIZE ≤
            totalSegmentsRequiredFor b.length * BUNDLE_STORAGE_PER_SEGMENT_SIZE :=
          Nat.le_mul_of_pos_left _ (totalSegments_pos _ hb)
        have hlast := totalSegments_last b.length hb
        simp only [segmentSlice, List.length_take, List.length_drop, hieq]
        by_cases hmod : b.length % BUNDLE_STORAGE_PER_SEGMENT_SIZE = 0
        · simp only [hmod, if_pos rfl] at hlast
          simp only [hmod, ne_eq, not_true_eq_false, if_false]
          omega
        · rw [if_neg hmod] at hlast
          simp only [ne_eq, hmod, not_false_eq_true, if_true]
          omega
      · have hnext : (segRecord b chain i).nextSegmentId = chain.getD (i + 1) 0 := by
          simp [segRecord, hl]
        have hne := hids (i + 1) (by omega)
        rw [hnext, if_neg hne,
          show (segRecord b chain i).payload = segmentSlice b i from rfl]
        apply List.take_of_length_le
        simp only [segmentSlice, List.length_take]
        omega
    rw [hsz] at htop
    have hrest := ih (i + 1) (by omega)
    simp only [readSegmentsFrom, htop, hrest, Option.map_some]
    rfl

/-- Concatenating the per-segment slices of a bundle reproduces the
bundle. -/
theorem join_segmentSlices : ∀ k b, totalSegmentsRequiredFor b.length = k →
    ((List.range k).map (segmentSlice b)).join = b := by
  intro k
  induction k with
  | zero =>
    intro b hk
    have hb : b.length = 0 := by
      by_contra h
      have := totalSegments_pos b.length (by omega)
      omega
    simp [List.length_eq_zero.mp hb]
  | succ m ih =>
    intro b hk
    by_cases hle : b.length ≤ BUNDLE_STORAGE_PER_SEGMENT_SIZE
    · have hb1 : 1 ≤ b.length := by
        by_contra h
        have hz : b.length = 0 := by omega
        simp [totalSegmentsRequiredFor, hz] at hk
      have hm : m = 0 := by
        have h1 := totalSegments_lower b.length hb1
        rw [hk] at h1
        simp only [Nat.add_sub_cancel] at h1
        by_contra hm0
        have hm1 : 1 ≤ m := by omega
        have h2 : BUNDLE_STORAGE_PER_SEGMENT_SIZE ≤
            m * BUNDLE_STORAGE_PER_SEGMENT_SIZE :=
          Nat.le_mul_of_pos_left _ hm1
        omega
      subst hm
      have hslice : segmentSlice b 0 = b := by
        simp [segmentSlice, List.take_of_length_le hle]
      have hr1 : List.range 1 = [0] := rfl
      simp [hr1, hslice]
    · have hle2 : BUNDLE_STORAGE_PER_SEGMENT_SIZE < b.length := by omega
      have hrec : totalSegmentsRequiredFor
          (b.drop BUNDLE_STORAGE_PER_SEGMENT_SIZE).length = m := by
        simp only [List.length_drop]
        simp only [totalSegmentsRequiredFor, BUNDLE_STORAGE_PER_SEGMENT_SIZE] at hk hle2 ⊢
        by_cases hmod : b.length % 4076 = 0
        · have hmod2 : (b.length - 4076) % 4076 = 0 := by omega
          rw [if_pos hmod] at hk
          rw [if_pos hmod2]
          omega
        · have hmod2 : ¬ (b.length - 4076) % 4076 = 0 := by omega
          rw [if_neg hmod] at hk
          rw [if_neg hmod2]
          omega
      have hshift : ∀ j, segmentSlice b (j + 1) =
          segmentSlice (b.drop BUNDLE_STORAGE_PER_SEGMENT_SIZE) j := by
        intro j
        simp only [segmentSlice, List.drop_drop]
        congr 2
        ring
      have hmap : (List.range (m + 1)).map (segmentSlice b) =
          segmentSlice b 0 ::
            (List.range m).map (segmentSlice (b.drop BUNDLE_STORAGE_PER_SEGMENT_SIZE)) := by
        rw [List.range_succ_eq_map, List.map_cons, List.map_map]
        refine congrArg (fun t => segmentSlice b 0 :: t) ?_
        apply List.map_congr_left
        intro j _
        exact hshift j
      rw [hmap]
      have hj : (segmentSlice b 0 ::
          (List.range m).map (segmentSlice (b.drop BUNDLE_STORAGE_PER_SEGMENT_SIZE))).join =
          segmentSlice b 0 ++
          ((List.range m).map (segmentSlice (b.drop BUNDLE_STORAGE_PER_SEGMENT_SIZE))).join := by
        simp
      rw [hj, ih _ hrec]
      simpa [segmentSlice] using List.take_append_drop BUNDLE_STORAGE_PER_SEGMENT_SIZE b

/-- C10: the claim asserts that the stored priority index `(flags >> 7) & 3`
always lies within the bounds of the per-destination priority array (valid
indices `0..NUMBER_OF_PRIORITIES-1 = 0..2`), in particular for the reserved
flags pattern 11.  The code violates this: flags `0x180` (bits 8 and 7 set)
make `Push` store priority index 3, and the final `PushSegment` then performs
the out-of-bounds catalog access `priorityArray[3]` (modelled as `none`). -/
theorem C10_priority_index_out_of_bounds_bug :
    bpv6PriorityIndex 384 = 3 ∧
    NUMBER_OF_PRIORITIES = 3 ∧
    (Push (emptyStore 16 1) ⟨384, 5, 0, 100⟩ 1).map
      (fun r => r.2.1.priorityIndex) = some 3 ∧
    ((Push (emptyStore 16 1) ⟨384, 5, 0, 100⟩ 1).bind
      (fun r => PushSegment r.2.2 r.2.1 [42])).isNone = true := by decide

/-- C5: for every read session with a nonempty chain,
`RemoveReadBundleFromDisk` with `force = false` on an incompletely read
session returns `false` and changes nothing (no segment freed, no disk write);
otherwise it overwrites the first segment's `bundleSizeBytes` with
`UINT64_MAX` on disk and removes exactly the chain's segment IDs from the
memory manager's used set, returning the manager's status flag. -/
theorem C5_remove_read_bundle_precondition
    (bsm : BundleStorageManagerBase)
    (session : BundleStorageManagerSession_ReadFromDisk)
    (hne : session.chainInfo.segmentIdChainVec ≠ []) :
    (session.nextLogicalSegment ≠ session.chainInfo.segmentIdChainVec.length →
      RemoveReadBundleFromDisk bsm session false = (false, bsm)) ∧
    (∀ force : Bool,
      (force = true ∨
        session.nextLogicalSegment = session.chainInfo.segmentIdChainVec.length) →
      ∃ headSeg : StoredSegment,
        RemoveReadBundleFromDisk bsm session force =
          (session.chainInfo.segmentIdChainVec.all (fun i => i ∈ bsm.m_memoryManager),
            { bsm with
              disk := (session.chainInfo.segmentIdChainVec.headD 0,
                { headSeg with bundleSizeBytes := U64MAX }) :: bsm.disk
              m_memoryManager :=
                bsm.m_memoryManager \ session.chainInfo.segmentIdChainVec.toFinset })) := by
  constructor
  · intro hlen
    simp [RemoveReadBundleFromDisk, hlen]
  · intro force hforce
    refine ⟨(diskRead bsm.disk (session.chainInfo.segmentIdChainVec.headD 0)).getD ⟨0, 0, []⟩, ?_⟩
    rcases hforce with hforce | hforce
    · subst hforce
      simp [RemoveReadBundleFromDisk, FreeSegments_ThreadSafe]
    · simp [RemoveReadBundleFromDisk, hforce, FreeSegments_ThreadSafe]

theorem C5_remove_read_bundle_precondition_witness :
    (sessC5.nextLogicalSegment ≠ sessC5.chainInfo.segmentIdChainVec.length →
      RemoveReadBundleFromDisk bsmC5 sessC5 false = (false, bsmC5)) ∧
    (∀ force : Bool,
      (force = true ∨
        sessC5.nextLogicalSegment = sessC5.chainInfo.segmentIdChainVec.length) →
      ∃ headSeg : StoredSegment,
        RemoveReadBundleFromDisk bsmC5 sessC5 force =
          (sessC5.chainInfo.segmentIdChainVec.all (fun i => i ∈ bsmC5.m_memoryManager),
            { bsmC5 with
              disk := (sessC5.chainInfo.segmentIdChainVec.headD 0,
                { headSeg with bundleSizeBytes := U64MAX }) :: bsmC5.disk
              m_memoryManager :=
                bsmC5.m_memoryManager \ sessC5.chainInfo.segmentIdChainVec.toFinset })) :=
  C5_remove_read_bundle_precondition bsmC5 sessC5 (by decide)

/-- C4 counterexample: the claim says that when the derived failure event has
no action specified in the policy's event set an acceptor only logs and
continues (the bundle is kept).  At this concrete input — a BIB acceptor, a
CORRUPTED error on target index 0 (a non-payload block) and an event set with
no entry for the event — `DoFailureEvent` returns `none` (the bundle is
dropped), so the claim is false. -/
theorem C4_counterexample :
    evtLutC4 (deriveFailureEvent true .CORRUPTED) = none ∧
    DoFailureEvent evtLutC4 true true [⟨.CORRUPTED, 0⟩] asbC4 bundleC4 = none := by
  decide

/-- An unmapped event makes the loop body drop the bundle for either role
(the acceptor's `return false` at line 490, the verifier's at line 563). -/
theorem doFailureEventStep_lut_none
    (evtLut : event_type_to_event_set_ptr_lut_t) (isAcceptor isIntegrity : Bool)
    (thisError : BpSecError) (asb : AsbBlockState) (bundle : BundleBlocksState)
    (hnone : evtLut (deriveFailureEvent isAcceptor thisError.m_errorCode) = none) :
    doFailureEventStep evtLut isAcceptor isIntegrity thisError asb bundle = none := by
  cases isAcceptor
  · simp only [doFailureEventStep]
    simp [hnone]
  · simp only [doFailureEventStep]
    simp only [if_true, hnone]
    split <;> rfl

/-- A BCB acceptor whose failed target is the payload block drops the bundle
before consulting the event set (lines 401-410). -/
theorem doFailureEventStep_bcb_payload
    (evtLut : event_type_to_event_set_ptr_lut_t)
    (thisError : BpSecError) (asb : AsbBlockState) (bundle : BundleBlocksState)
    (h : thisError.m_securityTargetIndex = U64MAX ∨
      (asb.m_securityTargets.get? thisError.m_securityTargetIndex).getD 0 = 1) :
    doFailureEventStep evtLut true false thisError asb bundle = none := by
  unfold doFailureEventStep
  by_cases hidx : thisError.m_securityTargetIndex = U64MAX
  · simp [hidx]
  · rcases h with h | h
    · exact absurd h hidx
    · simp only [List.get?_eq_getElem?] at h
      simp [hidx, h]

/-- C4 (amended): for a reported per-target error, (a) if the derived
failure event has no entry in the event set then both the acceptor and the
verifier drop the bundle; (b) if the event entry exists but specifies no
applicable action, a BIB acceptor removes the security operation and keeps
the bundle; (c) a verifier whose event entry specifies no action keeps the
bundle with nothing changed; (d) a BCB acceptor whose failed target is the
payload block drops the bundle unconditionally. -/
theorem C4_unmapped_failure_events_amended
    (evtLut : event_type_to_event_set_ptr_lut_t) (isAcceptor isIntegrity : Bool)
    (thisError : BpSecError) (rest : List BpSecError)
    (asb : AsbBlockState) (bundle : BundleBlocksState) :
    (evtLut (deriveFailureEvent isAcceptor thisError.m_errorCode) = none →
      DoFailureEvent evtLut isAcceptor isIntegrity (thisError :: rest) asb bundle = none) ∧
    (∀ mask : ActionMasks, mask.FAIL_BUNDLE_FORWARDING = false →
      mask.REMOVE_SECURITY_OPERATION_TARGET_BLOCK = false →
      evtLut (deriveFailureEvent true thisError.m_errorCode) = some mask →
      ∀ asb', RemoveSopByGreatestToLeastIndex asb thisError.m_securityTargetIndex = some asb' →
      DoFailureEvent evtLut true true [thisError] asb bundle = some (asb', bundle)) ∧
    (∀ mask : ActionMasks, mask.FAIL_BUNDLE_FORWARDING = false →
      mask.REMOVE_SECURITY_OPERATION = false →
      mask.REMOVE_SECURITY_OPERATION_TARGET_BLOCK = false →
      evtLut (deriveFailureEvent false thisError.m_errorCode) = some mask →
      DoFailureEvent evtLut false isIntegrity [thisError] asb bundle = some (asb, bundle)) ∧
    ((thisError.m_securityTargetIndex = U64MAX ∨
      (asb.m_securityTargets.get? thisError.m_securityTargetIndex).getD 0 = 1) →
      DoFailureEvent evtLut true false (thisError :: rest) asb bundle = none) := by
  refine ⟨?_, ?_, ?_, ?_⟩
  · intro hnone
    have h := doFailureEventStep_lut_none evtLut isAcceptor isIntegrity thisError asb
      bundle hnone
    simp [DoFailureEvent, h]
  · intro mask h1 h2 hlut asb' hrem
    simp [DoFailureEvent, doFailureEventStep, hlut, hrem, h1, h2]
  · intro mask h1 h2 h3 hlut
    simp [DoFailureEvent, doFailureEventStep, hlut, h1, h2, h3]
  · intro hpayload
    have h := doFailureEventStep_bcb_payload evtLut thisError asb bundle hpayload
    simp [DoFailureEvent, h]

/-- Witness for C4 (amended), instantiating each conjunct: a verifier drop on
an unmapped event, an acceptor keep on an empty action mask, a verifier keep
on an empty action mask, and a BCB-acceptor payload drop. -/
theorem C4_unmapped_failure_events_amended_witness :
    DoFailureEvent evtLutC4 false true [⟨.MISCONFIGURED, 0⟩] asbC4 bundleC4 = none ∧
    DoFailureEvent evtLutC4w true true [⟨.CORRUPTED, 0⟩] asbC4 bundleC4 =
      some (⟨[], [], true, true⟩, bundleC4) ∧
    DoFailureEvent evtLutC4w false true [⟨.CORRUPTED, 0⟩] asbC4 bundleC4 =
      some (asbC4, bundleC4) ∧
    DoFailureEvent evtLutC4w true false [⟨.CORRUPTED, 0⟩] asbC4p bundleC4 = none :=
  ⟨(C4_unmapped_failure_events_amended evtLutC4 false true ⟨.MISCONFIGURED, 0⟩ [] asbC4
      bundleC4).1 rfl,
   (C4_unmapped_failure_events_amended evtLutC4w true true ⟨.CORRUPTED, 0⟩ [] asbC4
      bundleC4).2.1 ⟨false, false, false⟩ rfl rfl rfl ⟨[], [], true, true⟩ (by decide),
   (C4_unmapped_failure_events_amended evtLutC4w false true ⟨.CORRUPTED, 0⟩ [] asbC4
      bundleC4).2.2.1 ⟨false, false, false⟩ rfl rfl rfl rfl,
   (C4_unmapped_failure_events_amended evtLutC4w true false ⟨.CORRUPTED, 0⟩ [] asbC4p
      bundleC4).2.2.2 (Or.inr rfl)⟩

/-- C7: each trie level of `FindPolicy` prefers the exact-EID match, then
the node-only (service wildcard) match, then the any-EID child; and on the
example trie with policies for `ipn:1.1`, `ipn:1.*`, `ipn:*.*`, looking up
security source `ipn:1.1` returns the exact entry, `ipn:1.2` the
node-wildcard entry, `ipn:9.9` the any-EID entry, and a role with no stored
policy returns nothing. -/
theorem C7_cascading_policy_lookup (f : BpSecPolicyFilter) (eid : cbhe_eid_t) :
    (∀ next, assocLookup f.m_eidToNextFilterMap eid = some next →
      Internal_GetPolicyFilterFromThisFilter eid f = some next) ∧
    (assocLookup f.m_eidToNextFilterMap eid = none →
      ∀ next, assocLookup f.m_nodeIdToNextFilterMap eid.1 = some next →
      Internal_GetPolicyFilterFromThisFilter eid f = some next) ∧
    (assocLookup f.m_eidToNextFilterMap eid = none →
      assocLookup f.m_nodeIdToNextFilterMap eid.1 = none →
      Internal_GetPolicyFilterFromThisFilter eid f = f.m_anyEidToNextFilterPtr) ∧
    FindPolicy trieC7 (1, 1) (7, 7) (8, 8) 2 = some 101 ∧
    FindPolicy trieC7 (1, 2) (7, 7) (8, 8) 2 = some 102 ∧
    FindPolicy trieC7 (9, 9) (7, 7) (8, 8) 2 = some 103 ∧
    FindPolicy trieC7 (1, 1) (7, 7) (8, 8) 0 = none := by
  refine ⟨?_, ?_, ?_, rfl, rfl, rfl, rfl⟩
  · intro next h
    simp [Internal_GetPolicyFilterFromThisFilter, h]
  · intro h1 next h2
    simp [Internal_GetPolicyFilterFromThisFilter, h1, h2]
  · intro h1 h2
    simp [Internal_GetPolicyFilterFromThisFilter, h1, h2]

/-- Witness for C7 at the example trie: the exact map of the root holds
`(1,1)`, so the lookup returns its child. -/
theorem C7_cascading_policy_lookup_witness :
    Internal_GetPolicyFilterFromThisFilter (1, 1) trieC7 = some trieC7child :=
  (C7_cascading_policy_lookup trieC7 (1, 1)).1 trieC7child rfl

/-- `FindPolicy` with a role index at or beyond `RESERVED_MAX_ROLE_TYPES`
returns nothing (line 212). -/
theorem FindPolicy_role_overflow (root : BpSecPolicyFilter)
    (s b d : cbhe_eid_t) (role : Nat) (h : RESERVED_MAX_ROLE_TYPES ≤ role) :
    FindPolicy root s b d role = none := by
  unfold FindPolicy
  cases h1 : Internal_GetPolicyFilterFromThisFilter s root with
  | none => rfl
  | some f1 =>
    cases h2 : Internal_GetPolicyFilterFromThisFilter b f1 with
    | none => simp [h2]
    | some f2 =>
      cases h3 : Internal_GetPolicyFilterFromThisFilter d f2 with
      | none => simp [h2, h3]
      | some f3 => simp [h2, h3, Nat.not_lt.mpr h]

/-- C8: against a fixed trie, `FindPolicyWithCacheSupport` returns exactly
what `FindPolicy` returns, keeps the cache consistent, and on a repeated key
(including a cached negative result) answers without walking the trie; the
freshly constructed cache is consistent. -/
theorem C8_cache_transparency (root : BpSecPolicyFilter)
    (s b d : cbhe_eid_t) (role : Nat) (c : PolicySearchCache)
    (hc : cacheConsistent root c) :
    (FindPolicyWithCacheSupport root s b d role c).1 = FindPolicy root s b d role ∧
    cacheConsistent root (FindPolicyWithCacheSupport root s b d role c).2.1 ∧
    (role = c.role ∧ s = c.securitySourceEid ∧ b = c.bundleSourceEid ∧
      d = c.bundleFinalDestEid →
      (FindPolicyWithCacheSupport root s b d role c).2.2 = false) ∧
    cacheConsistent root PolicySearchCache.init := by
  have hinit : cacheConsistent root PolicySearchCache.init := by
    unfold cacheConsistent PolicySearchCache.init
    exact (FindPolicy_role_overflow root (0, 0) (0, 0) (0, 0)
      RESERVED_MAX_ROLE_TYPES le_rfl).symm
  by_cases hkey : role = c.role ∧ s = c.securitySourceEid ∧
      b = c.bundleSourceEid ∧ d = c.bundleFinalDestEid
  · obtain ⟨h1, h2, h3, h4⟩ := hkey
    have hfind : FindPolicy root s b d role =
        FindPolicy root c.securitySourceEid c.bundleSourceEid c.bundleFinalDestEid
          c.role := by
      rw [h1, h2, h3, h4]
    cases hfp : c.foundPolicy with
    | some p =>
      refine ⟨?_, ?_, ?_, hinit⟩
      · rw [hfind, ← hc, hfp]
        simp [FindPolicyWithCacheSupport, h1, h2, h3, h4, hfp]
      · simp only [FindPolicyWithCacheSupport, h1, h2, h3, h4, hfp, and_self, if_true,
          cacheConsistent]
        exact hfp ▸ hc
      · intro _
        simp [FindPolicyWithCacheSupport, h1, h2, h3, h4, hfp]
    | none =>
      refine ⟨?_, ?_, ?_, hinit⟩
      · rw [hfind, ← hc, hfp]
        simp [FindPolicyWithCacheSupport, h1, h2, h3, h4, hfp]
      · simp only [FindPolicyWithCacheSupport, h1, h2, h3, h4, hfp, and_self, if_true,
          cacheConsistent]
        exact hfp ▸ hc
      · intro _
        simp [FindPolicyWithCacheSupport, h1, h2, h3, h4, hfp]
  · refine ⟨?_, ?_, ?_, hinit⟩
    · simp [FindPolicyWithCacheSupport, hkey]
    · simp [FindPolicyWithCacheSupport, hkey, cacheConsistent]
    · intro h
      exact absurd h hkey

/-- Witness for C8 at a concrete trie, key and the freshly constructed
cache. -/
theorem C8_cache_transparency_witness :
    (FindPolicyWithCacheSupport trieC8 (1, 1) (2, 2) (3, 3) 1
        PolicySearchCache.init).1 = FindPolicy trieC8 (1, 1) (2, 2) (3, 3) 1 ∧
    cacheConsistent trieC8
      (FindPolicyWithCacheSupport trieC8 (1, 1) (2, 2) (3, 3) 1
        PolicySearchCache.init).2.1 ∧
    ((1 : Nat) = PolicySearchCache.init.role ∧
      ((1 : Nat), (1 : Nat)) = PolicySearchCache.init.securitySourceEid ∧
      ((2 : Nat), (2 : Nat)) = PolicySearchCache.init.bundleSourceEid ∧
      ((3 : Nat), (3 : Nat)) = PolicySearchCache.init.bundleFinalDestEid →
      (FindPolicyWithCacheSupport trieC8 (1, 1) (2, 2) (3, 3) 1
        PolicySearchCache.init).2.2 = false) ∧
    cacheConsistent trieC8 PolicySearchCache.init :=
  C8_cache_transparency trieC8 (1, 1) (2, 2) (3, 3) 1 PolicySearchCache.init (by rfl)

/-! ### C3: zeroed head segments during restore -/

/-- One outer-scan step of `RestoreFromDisk` at a free, in-file candidate
whose stored `bundleSizeBytes` is 0: the candidate is treated as a head
(0 is not the `UINT64_MAX` non-head marker); if the primary block fails to
decode the scan hits the malformed-bundle `return false` (line 430), and if
it decodes the required chain length is `totalSegmentsRequired = 0`, so the
chain walk hits the logical-segment bound check (line 453).  Either way the
whole restore fails. -/
theorem restoreOuterLoop_zero_head (decode : List Nat → Option Bpv6PrimaryBlock)
    (numDisks : Nat) (fileSegCounts : List Nat) (disk : List (Nat × StoredSegment))
    (fuel id : Nat) (acc : RestoreAcc)
    (hfree : IsSegmentFree acc.m_memoryManager id = true)
    (hin : segmentInFile numDisks fileSegCounts id = true)
    (hzero : ((disk.lookup id).getD zeroSegment).bundleSizeBytes = 0) :
    restoreOuterLoop decode numDisks fileSegCounts disk (fuel + 1) id acc = none := by
  have hne : ((disk.lookup id).getD zeroSegment).bundleSizeBytes ≠ U64MAX := by
    rw [hzero]; decide
  simp only [restoreOuterLoop, hfree, hin, Bool.true_eq_false, not_true_eq_false,
    if_false, Bool.not_true, hne, ite_false]
  cases hdec : decode ((disk.lookup id).getD zeroSegment).payload with
  | none => rfl
  | some primary =>
    have hlen : totalSegmentsRequiredFor
        ((disk.lookup id).getD zeroSegment).bundleSizeBytes = 0 := by
      rw [hzero]; rfl
    simp only [hlen, restoreChainWalk]
    cases hread : restoreReadSegment numDisks fileSegCounts disk id with
    | none => rfl
    | some seg => simp

/-- C3 (amended): a potential head segment whose `bundleSizeBytes` field is 0
is never skipped.  When the restore scan's first candidate (segment 0, free
in the fresh memory manager) lies within its file and reads back with
`bundleSizeBytes = 0`, `RestoreFromDisk` returns failure for every decoder:
an undecodable primary hits the malformed-bundle return, and a decodable one
makes the required chain length 0 and hits the chain-length check. -/
theorem C3_zeroed_head_restore_fails
    (decode : List Nat → Option Bpv6PrimaryBlock) (numDisks : Nat)
    (fileSegCounts : List Nat) (disk : List (Nat × StoredSegment))
    (hin : segmentInFile numDisks fileSegCounts 0 = true)
    (hzero : ((disk.lookup 0).getD zeroSegment).bundleSizeBytes = 0) :
    RestoreFromDisk decode numDisks fileSegCounts disk = none := by
  unfold RestoreFromDisk
  exact restoreOuterLoop_zero_head decode numDisks fileSegCounts disk
    (numDisks * (fileSegCounts.foldr max 0 + 2) + 1) 0 _ (by simp [IsSegmentFree]) hin hzero

/-- C3 counterexample: the claim says a zeroed head candidate
(`bundleSizeBytes = 0`) whose payload decodes to no primary block is skipped
and the restore scan continues with the next candidate.  On this concrete
store — segment 0 zeroed and undecodable, segment 1 a valid restorable
bundle — `RestoreFromDisk` returns failure instead of skipping; the same
disk with segment 0 marked as an ordinary non-head (`UINT64_MAX`) restores
the bundle at segment 1, showing that the failure is caused precisely by the
zeroed head. -/
theorem C3_counterexample :
    (restoreReadSegment 1 [2] diskC3 0).map (fun s => s.bundleSizeBytes) = some 0 ∧
    decodeC3 zeroSegment.payload = none ∧
    (RestoreFromDisk decodeC3 1 [2] diskC3).isNone = true ∧
    (RestoreFromDisk decodeC3 1 [2] ((0, ⟨U64MAX, 0, []⟩) :: diskC3)).map
      (fun acc => acc.totalBundlesRestored) = some 1 := by
  refine ⟨by decide, by decide, ?_, ?_⟩ <;> decide

/-- Witness for the amended C3 theorem at the counterexample store. -/
theorem C3_zeroed_head_restore_fails_witness :
    RestoreFromDisk decodeC3 1 [2] diskC3 = none :=
  C3_zeroed_head_restore_fails decodeC3 1 [2] diskC3 (by decide) (by decide)

/-! ### C6: ordering and backfill of the outgoing security pipeline -/

theorem bcbTargetFoldStep_preserves (bv : BundleViewV7) (acc : List Nat × Nat)
    (t : Nat) (h : placeholderInv acc.1 acc.2) :
    placeholderInv (bcbTargetFoldStep bv acc t).1 (bcbTargetFoldStep bv acc t).2 := by
  obtain ⟨h1, h2⟩ := h
  simp only [List.get?_eq_getElem?] at h2
  unfold bcbTargetFoldStep
  by_cases ht : t = BPV7_BLOCK_TYPE_CODE_INTEGRITY
  · constructor
    · simp [ht]
    · simp [ht, List.get?_eq_getElem?, List.getElem?_concat_length]
  · constructor
    · simp only [ht, if_false, List.length_append]
      omega
    · simp only [ht, if_false, List.get?_eq_getElem?]
      rw [List.getElem?_append_left h1]
      exact h2

theorem bcbTargetFold_preserves (bv : BundleViewV7) (l : List Nat) :
    ∀ acc : List Nat × Nat, placeholderInv acc.1 acc.2 →
    placeholderInv (l.foldl (bcbTargetFoldStep bv) acc).1
      (l.foldl (bcbTargetFoldStep bv) acc).2 := by
  induction l with
  | nil => intro acc h; exact h
  | cons t rest ih =>
    intro acc h
    exact ih _ (bcbTargetFoldStep_preserves bv acc t h)

theorem bcbTargetFold_mem (bv : BundleViewV7) (l : List Nat) :
    ∀ acc : List Nat × Nat, BPV7_BLOCK_TYPE_CODE_INTEGRITY ∈ l →
    placeholderInv (l.foldl (bcbTargetFoldStep bv) acc).1
      (l.foldl (bcbTargetFoldStep bv) acc).2 := by
  induction l with
  | nil => intro acc h; cases h
  | cons t rest ih =>
    intro acc hmem
    by_cases ht : t = BPV7_BLOCK_TYPE_CODE_INTEGRITY
    · refine bcbTargetFold_preserves bv rest _ ?_
      subst ht
      constructor <;> simp [bcbTargetFoldStep, List.get?_concat_length]
    · rcases List.mem_cons.mp hmem with h | h
      · exact absurd h.symm ht
      · exact ih _ h

/-- C6: when a security-source policy enables both integrity and
confidentiality, `ProcessOutgoingBundle` adds the BIB first, backfills the
BCB target placeholder reserved for the integrity block type with the front
canonical block's number (the BIB the processor placed immediately after the
primary block), and only then calls the encryption step over the backfilled
targets; a processor failure at either step aborts with an error before any
bundle is emitted; and `PopulateTargetArraysForSecuritySource` reserves the
placeholder (a zero slot at the recorded index) whenever the integrity block
type is among the confidentiality targets. -/
theorem C6_outgoing_security_ordering_and_backfill
    (ops : BpSecBundleProcessorOps) (bv : BundleViewV7) (policy : BpSecPolicy)
    (ctx : BpSecPolicyProcessingContext)
    (hctx : ctx = PopulateTargetArraysForSecuritySource bv policy)
    (hInt : policy.m_doIntegrity = true)
    (hCon : policy.m_doConfidentiality = true) :
    (ops.TryAddBundleIntegrity bv ctx.m_bibTargetBlockNumbers = none →
      ProcessOutgoingBundle ops bv ctx policy = none) ∧
    (∀ bv₁, ops.TryAddBundleIntegrity bv ctx.m_bibTargetBlockNumbers = some bv₁ →
      ctx.m_bcbTargetBibBlockNumberPlaceholderIndex ≠ U64MAX →
      ProcessOutgoingBundle ops bv ctx policy =
        ops.TryEncryptBundle bv₁
          (ctx.m_bcbTargetBlockNumbers.set ctx.m_bcbTargetBibBlockNumberPlaceholderIndex
            ((bv₁.m_listCanonicalBlockView.headD ⟨0, 0⟩).m_blockNumber))) ∧
    (∀ bv₁, ops.TryAddBundleIntegrity bv ctx.m_bibTargetBlockNumbers = some bv₁ →
      ctx.m_bcbTargetBibBlockNumberPlaceholderIndex ≠ U64MAX →
      ops.TryEncryptBundle bv₁
        (ctx.m_bcbTargetBlockNumbers.set ctx.m_bcbTargetBibBlockNumberPlaceholderIndex
          ((bv₁.m_listCanonicalBlockView.headD ⟨0, 0⟩).m_blockNumber)) = none →
      ProcessOutgoingBundle ops bv ctx policy = none) ∧
    (BPV7_BLOCK_TYPE_CODE_INTEGRITY ∈ policy.m_bcbBlockTypeTargets →
      ctx.m_bcbTargetBibBlockNumberPlaceholderIndex <
        ctx.m_bcbTargetBlockNumbers.length ∧
      ctx.m_bcbTargetBlockNumbers.get?
        ctx.m_bcbTargetBibBlockNumberPlaceholderIndex = some 0) := by
  refine ⟨?_, ?_, ?_, ?_⟩
  · intro hfail
    simp [ProcessOutgoingBundle, hInt, hCon, hfail]
  · intro bv₁ hok hph
    simp [ProcessOutgoingBundle, hInt, hCon, hok, hph]
  · intro bv₁ hok hph henc
    have h2 : ProcessOutgoingBundle ops bv ctx policy =
        ops.TryEncryptBundle bv₁
          (ctx.m_bcbTargetBlockNumbers.set ctx.m_bcbTargetBibBlockNumberPlaceholderIndex
            ((bv₁.m_listCanonicalBlockView.headD ⟨0, 0⟩).m_blockNumber)) := by
      simp [ProcessOutgoingBundle, hInt, hCon, hok, hph]
    rw [h2, henc]
  · intro hmem
    have h := bcbTargetFold_mem bv policy.m_bcbBlockTypeTargets ([], U64MAX) hmem
    have hfold : ctx.m_bcbTargetBlockNumbers =
        (policy.m_bcbBlockTypeTargets.foldl (bcbTargetFoldStep bv) ([], U64MAX)).1 ∧
        ctx.m_bcbTargetBibBlockNumberPlaceholderIndex =
        (policy.m_bcbBlockTypeTargets.foldl (bcbTargetFoldStep bv) ([], U64MAX)).2 := by
      rw [hctx]
      unfold PopulateTargetArraysForSecuritySource bcbTargetFoldStep
      simp [hCon]
    rw [hfold.1, hfold.2]
    exact h

/-- Witness for C6 at the concrete scenario: the encryption step receives
the backfilled targets (the placeholder slot overwritten with the new BIB's
block number, taken from the front of the canonical list after the BIB was
added), and the populate step reserved a zero placeholder slot. -/
theorem C6_outgoing_security_ordering_and_backfill_witness :
    ProcessOutgoingBundle opsC6 bvC6 ctxC6 policyC6 =
      opsC6.TryEncryptBundle ⟨[⟨3, 11⟩, ⟨1, 1⟩]⟩
        (ctxC6.m_bcbTargetBlockNumbers.set
          ctxC6.m_bcbTargetBibBlockNumberPlaceholderIndex
          ((BundleViewV7.mk [⟨3, 11⟩, ⟨1, 1⟩]).m_listCanonicalBlockView.headD
            ⟨0, 0⟩).m_blockNumber) ∧
    ctxC6.m_bcbTargetBlockNumbers.get?
      ctxC6.m_bcbTargetBibBlockNumberPlaceholderIndex = some 0 :=
  ⟨(C6_outgoing_security_ordering_and_backfill opsC6 bvC6 policyC6 ctxC6 rfl rfl
      rfl).2.1 ⟨[⟨3, 11⟩, ⟨1, 1⟩]⟩ rfl (by decide),
   ((C6_outgoing_security_ordering_and_backfill opsC6 bvC6 policyC6 ctxC6 rfl rfl
      rfl).2.2.2 (by decide)).2⟩

/-- C1: pushing a bundle `b` with `1 ≤ |b| ≤ 10·PER_SEGMENT_PAYLOAD` and a
valid primary (priority index within bounds, expiration below the sentinel)
into an empty store with room for the chain, then `PopTop` on the
destination, then reading every segment with `TopSegment`, yields exactly
the bytes of `b` (the reads join to `b`, non-final reads return the full
payload size and the final read `|b| mod PER_SEGMENT_PAYLOAD`, or a full
payload when evenly divisible), and `RemoveReadBundleFromDisk` then frees
exactly `ceil(|b|/PER_SEGMENT_PAYLOAD)` segments, returning the memory
manager to the empty pre-push snapshot. -/
theorem C1_store_round_trip (maxSegments numDisks : Nat)
    (primary : Bpv6PrimaryBlock) (b : List Nat)
    (hb1 : 1 ≤ b.length)
    (hb2 : b.length ≤ 10 * BUNDLE_STORAGE_PER_SEGMENT_SIZE)
    (hpi : bpv6PriorityIndex primary.flags < NUMBER_OF_PRIORITIES)
    (hexp : primary.creation + primary.lifetime < U64MAX)
    (hM : totalSegmentsRequiredFor b.length ≤ maxSegments)
    (hM32 : maxSegments < U32MAX) :
    storeRoundTrip maxSegments numDisks primary b =
      some (totalSegmentsRequiredFor b.length,
        (List.range (totalSegmentsRequiredFor b.length)).map (segmentSlice b),
        true, ∅) ∧
    ((List.range (totalSegmentsRequiredFor b.length)).map (segmentSlice b)).join = b ∧
    (∀ j, j + 1 < totalSegmentsRequiredFor b.length →
      (segmentSlice b j).length = BUNDLE_STORAGE_PER_SEGMENT_SIZE) ∧
    (segmentSlice b (totalSegmentsRequiredFor b.length - 1)).length =
      (if b.length % BUNDLE_STORAGE_PER_SEGMENT_SIZE = 0
        then BUNDLE_STORAGE_PER_SEGMENT_SIZE
        else b.length % BUNDLE_STORAGE_PER_SEGMENT_SIZE) ∧
    totalSegmentsRequiredFor b.length =
      (b.length + BUNDLE_STORAGE_PER_SEGMENT_SIZE - 1) /
        BUNDLE_STORAGE_PER_SEGMENT_SIZE := by
  have hP : 0 < BUNDLE_STORAGE_PER_SEGMENT_SIZE := by decide
  have hk1 : 1 ≤ totalSegmentsRequiredFor b.length := totalSegments_pos _ hb1
  have hlow := totalSegments_lower b.length hb1
  have hlast := totalSegments_last b.length hb1
  have hceil := totalSegmentsRequiredFor_eq_ceil b.length
  have hjoin := join_segmentSlices (totalSegmentsRequiredFor b.length) b rfl
  obtain ⟨K, hK⟩ : ∃ K, totalSegmentsRequiredFor b.length = K := ⟨_, rfl⟩
  rw [hK] at hk1 hM hlow hlast hceil hjoin ⊢
  -- Push allocates segment IDs 0..K-1
  have hpush : Push (emptyStore maxSegments numDisks) primary b.length =
      some (K, ⟨⟨b.length, List.range K⟩, 0, primary.dst_node,
        bpv6PriorityIndex primary.flags, primary.creation + primary.lifetime⟩,
        ⟨maxSegments, numDisks, (List.range K).toFinset, [], []⟩) := by
    simp only [Push, emptyStore, hK, allocate_empty maxSegments K hM]
  -- push all segments
  obtain ⟨bsm₂, hrun, hcat, hmem, hmax, hnum, hread, hframe⟩ :=
    pushSegmentsFrom_spec b (List.range K) primary.dst_node
      (bpv6PriorityIndex primary.flags) (primary.creation + primary.lifetime) hpi
      (List.nodup_range K) K 0
      ⟨maxSegments, numDisks, (List.range K).toFinset, [], []⟩
      (by simp) (by simp; omega)
  have hpa : PushAllSegments ⟨maxSegments, numDisks, (List.range K).toFinset, [], []⟩
      ⟨⟨b.length, List.range K⟩, 0, primary.dst_node, bpv6PriorityIndex primary.flags,
        primary.creation + primary.lifetime⟩ b = some bsm₂ := by
    rw [PushAllSegments]
    simpa using hrun
  -- the resulting catalog holds exactly our chain
  have hdm2 : bsm₂.m_destMap =
      [(primary.dst_node, priority_array_new.set (bpv6PriorityIndex primary.flags)
        [(primary.creation + primary.lifetime, [⟨b.length, List.range K⟩])])] := by
    have h := hcat
    rw [show (⟨maxSegments, numDisks, (List.range K).toFinset, [], []⟩ :
        BundleStorageManagerBase).m_destMap = [] from rfl,
      catalogInsert_nil _ _ _ _ hpi] at h
    exact (Option.some.inj h).symm
  -- pop it back
  have hpop := popTop_singleton bsm₂ primary.dst_node
    (bpv6PriorityIndex primary.flags) (primary.creation + primary.lifetime)
    ⟨b.length, List.range K⟩ hpi hexp hdm2
  -- read every segment back
  have hdisk3 : ∀ j, j < (List.range K).length →
      diskRead bsm₂.disk ((List.range K).getD j 0) =
        some (segRecord b (List.range K) j) :=
    fun j hj => hread j (Nat.zero_le j) hj
  have hgetDr : ∀ j, j < K → (List.range K).getD j 0 = j := by
    intro j hj
    rw [List.getD_eq_getElem?_getD, List.getElem?_eq_getElem (by simpa using hj)]
    simp
  have hids3 : ∀ j, j < (List.range K).length → (List.range K).getD j 0 ≠ U32MAX := by
    intro j hj
    rw [hgetDr j (by simpa using hj)]
    have : j < K := by simpa using hj
    omega
  have hreads := readSegmentsFrom_spec
    { bsm₂ with m_destMap := [(primary.dst_node,
        priority_array_new.set (bpv6PriorityIndex primary.flags) [])] }
    b (List.range K) primary.dst_node (bpv6PriorityIndex primary.flags)
    (primary.creation + primary.lifetime)
    (by rw [List.length_range]; exact hK.symm) hb1 hdisk3 hids3 K 0
    (by rw [List.length_range]; omega)
  have hra : ReadAllSegments
      { bsm₂ with m_destMap := [(primary.dst_node,
          priority_array_new.set (bpv6PriorityIndex primary.flags) [])] }
      ⟨⟨b.length, List.range K⟩, 0, primary.dst_node,
        bpv6PriorityIndex primary.flags, primary.creation + primary.lifetime⟩ =
      some ((List.range K).map (segmentSlice b),
        ⟨⟨b.length, List.range K⟩, K, primary.dst_node,
          bpv6PriorityIndex primary.flags, primary.creation + primary.lifetime⟩) := by
    rw [ReadAllSegments]
    simp only [List.length_range, Nat.sub_zero]
    rw [hreads]
    simp [← List.range_eq_range', List.length_range]
  -- remove after the complete read
  have hrm1 : (RemoveReadBundleFromDisk
      { bsm₂ with m_destMap := [(primary.dst_node,
          priority_array_new.set (bpv6PriorityIndex primary.flags) [])] }
      ⟨⟨b.length, List.range K⟩, K, primary.dst_node,
        bpv6PriorityIndex primary.flags, primary.creation + primary.lifetime⟩
      false).1 = (List.range K).all (fun i => i ∈ bsm₂.m_memoryManager) := by
    simp [RemoveReadBundleFromDisk, List.length_range, FreeSegments_ThreadSafe]
  have hrm2 : (RemoveReadBundleFromDisk
      { bsm₂ with m_destMap := [(primary.dst_node,
          priority_array_new.set (bpv6PriorityIndex primary.flags) [])] }
      ⟨⟨b.length, List.range K⟩, K, primary.dst_node,
        bpv6PriorityIndex primary.flags, primary.creation + primary.lifetime⟩
      false).2.m_memoryManager =
      bsm₂.m_memoryManager \ (List.range K).toFinset := by
    simp [RemoveReadBundleFromDisk, List.length_range, FreeSegments_ThreadSafe]
  have hmem2 : bsm₂.m_memoryManager = (List.range K).toFinset := by
    rw [hmem]
  have hall : ((List.range K).all (fun i => i ∈ bsm₂.m_memoryManager)) = true := by
    rw [hmem2]
    simp [List.all_eq_true]
  have hsd : bsm₂.m_memoryManager \ (List.range K).toFinset = ∅ := by
    rw [hmem2, Finset.sdiff_self]
  refine ⟨?_, hjoin, ?_, ?_, hceil⟩
  · simp only [storeRoundTrip, hpush, hpa, hpop, hra, hrm1, hrm2, hall, hsd]
  · intro j hj
    have h2 : (j + 1) * BUNDLE_STORAGE_PER_SEGMENT_SIZE ≤
        (K - 1) * BUNDLE_STORAGE_PER_SEGMENT_SIZE :=
      Nat.mul_le_mul_right _ (by omega)
    have h3 : (j + 1) * BUNDLE_STORAGE_PER_SEGMENT_SIZE =
        j * BUNDLE_STORAGE_PER_SEGMENT_SIZE + BUNDLE_STORAGE_PER_SEGMENT_SIZE := by
      ring
    simp only [segmentSlice, List.length_take, List.length_drop]
    omega
  · have hmodlt : b.length % BUNDLE_STORAGE_PER_SEGMENT_SIZE <
        BUNDLE_STORAGE_PER_SEGMENT_SIZE := Nat.mod_lt _ hP
    simp only [segmentSlice, List.length_take, List.length_drop]
    by_cases hmod : b.length % BUNDLE_STORAGE_PER_SEGMENT_SIZE = 0
    · rw [if_pos hmod]
      rw [if_pos hmod] at hlast
      omega
    · rw [if_neg hmod]
      rw [if_neg hmod] at hlast
      omega

/-- Witness for C1: a one-byte bundle for destination 5 at priority 1,
expiration 100, on a 16-segment single-disk store. -/
theorem C1_store_round_trip_witness :
    storeRoundTrip 16 1 ⟨128, 5, 0, 100⟩ [42] =
      some (totalSegmentsRequiredFor ([42] : List Nat).length,
        (List.range (totalSegmentsRequiredFor ([42] : List Nat).length)).map
          (segmentSlice [42]),
        true, ∅) ∧
    ((List.range (totalSegmentsRequiredFor ([42] : List Nat).length)).map
      (segmentSlice [42])).join = [42] ∧
    (∀ j, j + 1 < totalSegmentsRequiredFor ([42] : List Nat).length →
      (segmentSlice [42] j).length = BUNDLE_STORAGE_PER_SEGMENT_SIZE) ∧
    (segmentSlice [42]
      (totalSegmentsRequiredFor ([42] : List Nat).length - 1)).length =
      (if ([42] : List Nat).length % BUNDLE_STORAGE_PER_SEGMENT_SIZE = 0
        then BUNDLE_STORAGE_PER_SEGMENT_SIZE
        else ([42] : List Nat).length % BUNDLE_STORAGE_PER_SEGMENT_SIZE) ∧
    totalSegmentsRequiredFor ([42] : List Nat).length =
      (([42] : List Nat).length + BUNDLE_STORAGE_PER_SEGMENT_SIZE - 1) /
        BUNDLE_STORAGE_PER_SEGMENT_SIZE :=
  C1_store_round_trip 16 1 ⟨128, 5, 0, 100⟩ [42]
    (by decide) (by decide) (by decide) (by decide) (by decide) (by decide)

/-! ### General properties of `PopTop` (claims C2 and C9) -/

theorem lookup_none_of_forall {α : Type} (t : List (Nat × α)) (d : Nat)
    (h : ∀ p ∈ t, p.1 ≠ d) : List.lookup d t = none := by
  induction t with
  | nil => rfl
  | cons p rest ih =>
    obtain ⟨k, v⟩ := p
    have hk : (d == k) = false :=
      beq_eq_false_iff_ne.mpr (Ne.symm (h (k, v) (List.mem_cons_self _ _)))
    simp only [List.lookup, hk]
    exact ih (fun q hq => h q (List.mem_cons_of_mem _ hq))

theorem lookup_assocUpdate {α : Type} (l : List (Nat × α)) (k d : Nat)
    (dflt : α) (f : α → α) :
    List.lookup d (assocUpdate l k dflt f) =
      if k = d then some (f ((List.lookup k l).getD dflt)) else List.lookup d l := by
  induction l with
  | nil =>
    by_cases h : k = d
    · subst h
      simp [assocUpdate, List.lookup]
    · have h1 : (d == k) = false := beq_eq_false_iff_ne.mpr (Ne.symm h)
      simp [assocUpdate, List.lookup, h1, h]
  | cons p t ih =>
    obtain ⟨k', v⟩ := p
    by_cases hk : k' = k
    · subst hk
      by_cases h : k' = d
      · subst h
        simp [assocUpdate, List.lookup]
      · have h1 : (d == k') = false := beq_eq_false_iff_ne.mpr (Ne.symm h)
        simp [assocUpdate, List.lookup, h1, h]
    · by_cases h : k' = d
      · subst h
        have h2 : ¬ k = k' := fun hh => hk hh.symm
        have h3 : (k == k') = false := beq_eq_false_iff_ne.mpr (fun hh => hk hh.symm)
        simp [assocUpdate, List.lookup, hk, h2, h3]
      · have h1 : (d == k') = false := beq_eq_false_iff_ne.mpr (Ne.symm h)
        have h3 : (k == k') = false := beq_eq_false_iff_ne.mpr (fun hh => hk hh.symm)
        simp [assocUpdate, List.lookup, hk, h1, h3, ih]

/-- The head of a sorted expiration map is its least key: it is found by
lookup, and every smaller key is absent. -/
theorem expMap_head_spec (em : expiration_map_t) (e : Nat)
    (l : chain_info_flist_t) (hwf : (em.map Prod.fst).Chain' (· < ·))
    (hh : em.head? = some (e, l)) :
    List.lookup e em = some l ∧ ∀ e', e' < e → List.lookup e' em = none := by
  obtain ⟨t, rfl⟩ : ∃ t, em = (e, l) :: t := by
    cases em with
    | nil => simp at hh
    | cons p t =>
      obtain rfl : p = (e, l) := by simpa using hh
      exact ⟨t, rfl⟩
  constructor
  · simp [List.lookup]
  · intro e' he'
    have h1 : (e' == e) = false := beq_eq_false_iff_ne.mpr (by omega)
    simp only [List.lookup, h1]
    apply lookup_none_of_forall
    intro q hq
    have hpw := List.chain'_iff_pairwise.mp hwf
    have hgt := List.rel_of_pairwise_cons hpw
      (List.mem_map_of_mem Prod.fst hq)
    omega

/-- Popping the front of the head bucket: the head bucket becomes its tail
(the key is erased when the tail is empty, and smaller keys stay absent),
and all other keys are untouched. -/
theorem expMapPopFront_lookup (em : expiration_map_t) (e : Nat)
    (l : chain_info_flist_t) (hwf : (em.map Prod.fst).Chain' (· < ·))
    (hh : em.head? = some (e, l)) :
    ∀ e'', ((List.lookup e'' (expMapPopFront em e)).getD [] : chain_info_flist_t) =
      if e'' = e then l.tail else (List.lookup e'' em).getD [] := by
  obtain ⟨t, rfl⟩ : ∃ t, em = (e, l) :: t := by
    cases em with
    | nil => simp at hh
    | cons p t =>
      obtain rfl : p = (e, l) := by simpa using hh
      exact ⟨t, rfl⟩
  intro e''
  have hgt : ∀ x ∈ t.map Prod.fst, e < x := by
    intro x hx
    exact List.rel_of_pairwise_cons (List.chain'_iff_pairwise.mp hwf) hx
  have htnone : List.lookup e t = none := by
    apply lookup_none_of_forall
    intro q hq
    have := hgt q.1 (List.mem_map_of_mem Prod.fst hq)
    omega
  by_cases h : e'' = e
  · subst h
    cases l with
    | nil =>
      simp [expMapPopFront, htnone]
    | cons c cs =>
      cases cs with
      | nil => simp [expMapPopFront, htnone]
      | cons c' cs' => simp [expMapPopFront, List.lookup]
  · have h1 : (e'' == e) = false := beq_eq_false_iff_ne.mpr h
    cases l with
    | nil => simp [expMapPopFront, List.lookup, h1, h]
    | cons c cs =>
      cases cs with
      | nil => simp [expMapPopFront, List.lookup, h1, h]
      | cons c' cs' => simp [expMapPopFront, List.lookup, h1, h]

/-- Popping the front of the head bucket preserves well-formedness. -/
theorem expMapPopFront_WF (em : expiration_map_t) (e : Nat)
    (l : chain_info_flist_t) (hwf : ExpirationMapWF em)
    (hh : em.head? = some (e, l)) : ExpirationMapWF (expMapPopFront em e) := by
  obtain ⟨hsort, hne⟩ := hwf
  obtain ⟨t, rfl⟩ : ∃ t, em = (e, l) :: t := by
    cases em with
    | nil => simp at hh
    | cons p t =>
      obtain rfl : p = (e, l) := by simpa using hh
      exact ⟨t, rfl⟩
  have htail : ExpirationMapWF t := by
    refine ⟨?_, ?_⟩
    · simp only [List.map_cons] at hsort
      exact hsort.tail
    · intro q hq
      exact hne q (List.mem_cons_of_mem _ hq)
  cases l with
  | nil =>
    simpa [expMapPopFront] using htail
  | cons c cs =>
    cases cs with
    | nil => simpa [expMapPopFront] using htail
    | cons c' cs' =>
      refine ⟨?_, ?_⟩
      · simpa [expMapPopFront] using hsort
      · intro q hq
        simp only [expMapPopFront, if_pos rfl] at hq
        rcases List.mem_cons.mp hq with hq | hq
        · subst hq
          exact ⟨by simp, (hne (e, c :: c' :: cs') (List.mem_cons_self _ _)).2⟩
        · exact hne q (List.mem_cons_of_mem _ hq)

/-- Full characterization of the `PopTop` inner scan: the final lowest
expiration never grows, the selection (when changed) comes from a listed
link's head bucket strictly below the incoming lowest, a selected entry
fixes the final lowest, the final lowest is at most every head expiration
seen, and an empty selection means nothing was selected and the lowest never
moved. -/
theorem popTopScanGo_spec (i : Nat) :
    ∀ (pairs : List (Nat × priority_array_t)) (lowest : Nat)
      (best : Option (Nat × Nat × chain_info_flist_t)),
      (∀ l e bk, best = some (l, e, bk) → lowest = e) →
      ((popTopScanGo i lowest best pairs).1 ≤ lowest) ∧
      ((popTopScanGo i lowest best pairs).2 = best ∨
        ∃ link pa e bucket, (link, pa) ∈ pairs ∧
          ((pa.get? i).getD []).head? = some (e, bucket) ∧
          (popTopScanGo i lowest best pairs).2 = some (link, e, bucket) ∧
          e < lowest) ∧
      (∀ l e bk, (popTopScanGo i lowest best pairs).2 = some (l, e, bk) →
        (popTopScanGo i lowest best pairs).1 = e) ∧
      (∀ link pa e bucket, (link, pa) ∈ pairs →
        ((pa.get? i).getD []).head? = some (e, bucket) →
        (popTopScanGo i lowest best pairs).1 ≤ e) ∧
      ((popTopScanGo i lowest best pairs).2 = none → best = none ∧
        (popTopScanGo i lowest best pairs).1 = lowest) := by
  intro pairs
  induction pairs with
  | nil =>
    intro lowest best hlb
    refine ⟨le_rfl, Or.inl rfl, ?_, ?_, ?_⟩
    · intro l e bk h
      exact hlb l e bk h
    · intro link pa e bucket hmem
      cases hmem
    · intro _
      exact ⟨by assumption, rfl⟩
  | cons p rest ih =>
    intro lowest best hlb
    cases hhead : ((p.2.get? i).getD []).head? with
    | none =>
      obtain ⟨ha, hb, hc, hd, he⟩ := ih lowest best hlb
      have hgo : popTopScanGo i lowest best (p :: rest) =
          popTopScanGo i lowest best rest := by
        simp only [popTopScanGo, hhead]
      rw [hgo]
      refine ⟨ha, ?_, hc, ?_, he⟩
      · rcases hb with hb | ⟨link, pa, e, bucket, hm, hhd, hres, hlt⟩
        · exact Or.inl hb
        · exact Or.inr ⟨link, pa, e, bucket, List.mem_cons_of_mem _ hm, hhd, hres, hlt⟩
      · intro link pa e bucket hmem hhd
        rcases List.mem_cons.mp hmem with hmem | hmem
        · rw [← hmem] at hhead
          rw [hhead] at hhd
          cases hhd
        · exact hd link pa e bucket hmem hhd
    | some eb =>
      obtain ⟨e₀, bucket₀⟩ := eb
      by_cases hlt : lowest > e₀
      · have hgo : popTopScanGo i lowest best (p :: rest) =
            popTopScanGo i e₀ (some (p.1, e₀, bucket₀)) rest := by
          simp only [popTopScanGo, hhead, if_pos hlt]
        obtain ⟨ha, hb, hc, hd, he⟩ := ih e₀ (some (p.1, e₀, bucket₀))
          (by
            intro l e bk h
            obtain ⟨-, rfl, -⟩ : p.1 = l ∧ e₀ = e ∧ bucket₀ = bk := by
              simpa using h
            rfl)
        rw [hgo]
        refine ⟨by omega, ?_, hc, ?_, ?_⟩
        · rcases hb with hb | ⟨link, pa, e, bucket, hm, hhd, hres, hlt2⟩
          · exact Or.inr ⟨p.1, p.2, e₀, bucket₀, List.mem_cons_self _ _, hhead, hb,
              hlt⟩
          · exact Or.inr ⟨link, pa, e, bucket, List.mem_cons_of_mem _ hm, hhd, hres,
              by omega⟩
        · intro link pa e bucket hmem hhd
          rcases List.mem_cons.mp hmem with hmem | hmem
          · rw [← hmem] at hhead
            rw [hhead] at hhd
            obtain ⟨rfl, rfl⟩ : e = e₀ ∧ bucket = bucket₀ := by
              simpa using hhd.symm
            exact ha
          · exact hd link pa e bucket hmem hhd
        · intro hres
          obtain ⟨hcontra, _⟩ := he hres
          cases hcontra
      · have hgo : popTopScanGo i lowest best (p :: rest) =
            popTopScanGo i lowest best rest := by
          simp only [popTopScanGo, hhead, if_neg hlt]
        obtain ⟨ha, hb, hc, hd, he⟩ := ih lowest best hlb
        rw [hgo]
        refine ⟨ha, ?_, hc, ?_, he⟩
        · rcases hb with hb | ⟨link, pa, e, bucket, hm, hhd, hres, hlt2⟩
          · exact Or.inl hb
          · exact Or.inr ⟨link, pa, e, bucket, List.mem_cons_of_mem _ hm, hhd, hres,
              hlt2⟩
        · intro link pa e bucket hmem hhd
          rcases List.mem_cons.mp hmem with hmem | hmem
          · rw [← hmem] at hhead
            rw [hhead] at hhd
            obtain ⟨rfl, rfl⟩ : e = e₀ ∧ bucket = bucket₀ := by
              simpa using hhd.symm
            omega
          · exact hd link pa e bucket hmem hhd

/-- A successful `List.lookup` pinpoints a member of the association list. -/
theorem lookup_mem {α : Type} (l : List (Nat × α)) (k : Nat) (v : α)
    (h : List.lookup k l = some v) : (k, v) ∈ l := by
  induction l with
  | nil => cases h
  | cons p t ih =>
    obtain ⟨k', v'⟩ := p
    by_cases hk : k = k'
    · subst hk
      simp only [List.lookup, beq_self_eq_true] at h
      obtain rfl : v' = v := by simpa using h
      exact List.mem_cons_self _ _
    · have hb : (k == k') = false := beq_eq_false_iff_ne.mpr hk
      simp only [List.lookup, hb] at h
      exact List.mem_cons_of_mem _ (ih h)

/-- A successful inner scan selected a listed link's head bucket, whose key
is below the `UINT64_MAX` starting point and minimal among all heads. -/
theorem popTopScanPriority_some_spec (pairs : List (Nat × priority_array_t))
    (i link e : Nat) (bucket : chain_info_flist_t)
    (h : popTopScanPriority pairs i = some (link, e, bucket)) :
    (∃ pa, (link, pa) ∈ pairs ∧
      ((pa.get? i).getD []).head? = some (e, bucket) ∧ e < U64MAX) ∧
    ∀ link' pa' e' b', (link', pa') ∈ pairs →
      ((pa'.get? i).getD []).head? = some (e', b') → e ≤ e' := by
  obtain ⟨ha, hb, hc, hd, he⟩ :=
    popTopScanGo_spec i pairs U64MAX none (by intro l e bk hx; cases hx)
  unfold popTopScanPriority at h
  rcases hb with hb | ⟨l2, pa2, e2, b2, hm, hhd, hres, hlt⟩
  · rw [h] at hb
    cases hb
  · rw [h] at hres
    obtain ⟨rfl, rfl, rfl⟩ : link = l2 ∧ e = e2 ∧ bucket = b2 := by
      simpa using hres
    have hfl : (popTopScanGo i U64MAX none pairs).1 = e := hc link e bucket h
    refine ⟨⟨pa2, hm, hhd, hlt⟩, ?_⟩
    intro link' pa' e' b' hm' hh'
    have h1 := hd link' pa' e' b' hm' hh'
    rw [hfl] at h1
    exact h1

/-- An empty inner scan means every listed head key was at least
`UINT64_MAX`. -/
theorem popTopScanPriority_none_spec (pairs : List (Nat × priority_array_t))
    (i : Nat) (h : popTopScanPriority pairs i = none) :
    ∀ link pa e b, (link, pa) ∈ pairs →
      ((pa.get? i).getD []).head? = some (e, b) → U64MAX ≤ e := by
  obtain ⟨ha, hb, hc, hd, he⟩ :=
    popTopScanGo_spec i pairs U64MAX none (by intro l e bk hx; cases hx)
  unfold popTopScanPriority at h
  obtain ⟨-, hl⟩ := he h
  intro link pa e b hm hh
  have h1 := hd link pa e b hm hh
  rw [hl] at h1
  exact h1

/-- Under catalog well-formedness, an empty inner scan means every listed
expiration map at that priority is empty. -/
theorem popTopScanPriority_none_em_empty (pairs : List (Nat × priority_array_t))
    (i : Nat) (h : popTopScanPriority pairs i = none)
    (hwf : ∀ p ∈ pairs, PriorityArrayWF p.2) :
    ∀ link pa, (link, pa) ∈ pairs → ((pa.get? i).getD []) = [] := by
  intro link pa hm
  cases hem : ((pa.get? i).getD []) with
  | nil => rfl
  | cons p t =>
    obtain ⟨e, b⟩ := p
    have hhead : ((pa.get? i).getD []).head? = some (e, b) := by
      rw [hem]
      rfl
    have hge := popTopScanPriority_none_spec pairs i h link pa e b hm hhead
    have hwfp := (hwf (link, pa) hm).2
    cases hg : pa.get? i with
    | none =>
      rw [hg] at hem
      simp at hem
    | some em =>
      rw [hg] at hem
      simp only [Option.getD_some] at hem
      have hmem : em ∈ pa := List.get?_mem hg
      have hewf := hwfp em hmem
      have hbm : (e, b) ∈ em := by
        rw [hem]
        exact List.mem_cons_self _ _
      have := (hewf.2 _ hbm).2
      omega

/-- When every listed head at priority `i` is empty, the scan changes
nothing. -/
theorem popTopScanGo_all_none (i lowest : Nat)
    (best : Option (Nat × Nat × chain_info_flist_t)) :
    ∀ pairs : List (Nat × priority_array_t),
      (∀ p ∈ pairs, ((p.2.get? i).getD []).head? = none) →
      popTopScanGo i lowest best pairs = (lowest, best) := by
  intro pairs
  induction pairs generalizing lowest best with
  | nil => intro _; rfl
  | cons p rest ih =>
    intro h
    have hp : ((p.2.get? i).getD []).head? = none := h p (List.mem_cons_self _ _)
    simp only [popTopScanGo, hp]
    exact ih lowest best (fun q hq => h q (List.mem_cons_of_mem _ hq))

/-- Membership in the `PopTop` restriction of the catalog to the available
links. -/
theorem popTop_pairs_mem (dm : destination_map_t) (links : List Nat)
    (link : Nat) (pa : priority_array_t) :
    (link, pa) ∈ links.filterMap (fun l =>
      (dm.lookup l).map (fun q => (l, q))) ↔
    link ∈ links ∧ dm.lookup link = some pa := by
  rw [List.mem_filterMap]
  constructor
  · rintro ⟨x, hx, hfx⟩
    cases hl : dm.lookup x with
    | none =>
      rw [hl] at hfx
      cases hfx
    | some pa' =>
      rw [hl] at hfx
      obtain ⟨rfl, rfl⟩ : x = link ∧ pa' = pa := by simpa using hfx
      exact ⟨hx, hl⟩
  · rintro ⟨hx, hl⟩
    exact ⟨link, hx, by rw [hl]; rfl⟩

/-- Structural unfolding of a successful `popTopAtPriority`. -/
theorem popTopAtPriority_some_spec (bsm : BundleStorageManagerBase)
    (pairs : List (Nat × priority_array_t)) (i : Nat)
    (session : BundleStorageManagerSession_ReadFromDisk)
    (bsm' : BundleStorageManagerBase)
    (h : popTopAtPriority bsm pairs i = some (session, bsm')) :
    ∃ rest, popTopScanPriority pairs i =
        some (session.destLinkId, session.absExpiration,
          session.chainInfo :: rest) ∧
      session.nextLogicalSegment = 0 ∧ session.priorityIndex = i ∧
      bsm'.M_MAX_SEGMENTS = bsm.M_MAX_SEGMENTS ∧
      bsm'.M_NUM_STORAGE_DISKS = bsm.M_NUM_STORAGE_DISKS ∧
      bsm'.m_memoryManager = bsm.m_memoryManager ∧
      bsm'.disk = bsm.disk ∧
      bsm'.m_destMap =
        assocUpdate bsm.m_destMap session.destLinkId priority_array_new
          (fun pa => pa.set i
            (expMapPopFront ((pa.get? i).getD []) session.absExpiration)) := by
  unfold popTopAtPriority at h
  cases hscan : popTopScanPriority pairs i with
  | none =>
    rw [hscan] at h
    cases h
  | some r =>
    obtain ⟨dl, e, bucket⟩ := r
    rw [hscan] at h
    cases bucket with
    | nil => cases h
    | cons ci rest =>
      simp only [Option.some.injEq, Prod.mk.injEq] at h
      obtain ⟨hsess, hbsm⟩ := h
      subst hsess
      subst hbsm
      exact ⟨rest, rfl, rfl, rfl, rfl, rfl, rfl, rfl, rfl⟩

/-- Under a well-formed catalog slice, `popTopAtPriority` fails exactly when
the scan found nothing (well-formed buckets are never empty, so a successful
scan always yields a front chain). -/
theorem popTopAtPriority_none_scan (bsm : BundleStorageManagerBase)
    (pairs : List (Nat × priority_array_t)) (i : Nat)
    (hwf : ∀ p ∈ pairs, PriorityArrayWF p.2)
    (h : popTopAtPriority bsm pairs i = none) :
    popTopScanPriority pairs i = none := by
  cases hscan : popTopScanPriority pairs i with
  | none => rfl
  | some r =>
    obtain ⟨dl, e, bucket⟩ := r
    obtain ⟨⟨pa, hm, hhd, -⟩, -⟩ :=
      popTopScanPriority_some_spec pairs i dl e bucket hscan
    cases hg : pa.get? i with
    | none =>
      rw [hg] at hhd
      simp at hhd
    | some em =>
      rw [hg] at hhd
      simp only [Option.getD_some] at hhd
      have hmem : (e, bucket) ∈ em := List.mem_of_mem_head? hhd
      have hbne : bucket ≠ [] :=
        ((hwf (dl, pa) hm).2 em (List.get?_mem hg) |>.2 _ hmem).1
      unfold popTopAtPriority at h
      rw [hscan] at h
      cases bucket with
      | nil => exact absurd rfl hbne
      | cons ci rest => cases h

/-- A successful priority loop found its result at some priority `i`, with
every higher priority below `n` failing. -/
theorem popTopLoop_some_spec (bsm : BundleStorageManagerBase)
    (pairs : List (Nat × priority_array_t)) :
    ∀ (n : Nat) r, popTopLoop bsm pairs n = some r →
      ∃ i, i < n ∧ popTopAtPriority bsm pairs i = some r ∧
        ∀ j, i < j → j < n → popTopAtPriority bsm pairs j = none := by
  intro n
  induction n with
  | zero => intro r h; cases h
  | succ m ih =>
    intro r h
    unfold popTopLoop at h
    cases hm : popTopAtPriority bsm pairs m with
    | some r' =>
      rw [hm] at h
      obtain rfl : r' = r := by simpa using h
      exact ⟨m, Nat.lt_succ_self m, hm, fun j hj1 hj2 => absurd hj2 (by omega)⟩
    | none =>
      rw [hm] at h
      obtain ⟨i, hi, hat, hnone⟩ := ih r h
      refine ⟨i, by omega, hat, ?_⟩
      intro j hj1 hj2
      by_cases hjm : j = m
      · rw [hjm]; exact hm
      · exact hnone j hj1 (by omega)

/-- A failing priority loop failed at every priority below `n`. -/
theorem popTopLoop_none_spec (bsm : BundleStorageManagerBase)
    (pairs : List (Nat × priority_array_t)) :
    ∀ n : Nat, popTopLoop bsm pairs n = none →
      ∀ i, i < n → popTopAtPriority bsm pairs i = none := by
  intro n
  induction n with
  | zero => intro h i hi; omega
  | succ m ih =>
    intro h i hi
    unfold popTopLoop at h
    cases hm : popTopAtPriority bsm pairs m with
    | some r' =>
      rw [hm] at h
      cases h
    | none =>
      rw [hm] at h
      by_cases him : i = m
      · rw [him]; exact hm
      · exact ih h i (by omega)

/-- `List.set` / `List.get?` interaction, self-contained. -/
theorem get?_set_spec {α : Type} :
    ∀ (l : List α) (i j : Nat) (a : α),
      (l.set i a).get? j =
        if i = j ∧ i < l.length then some a else l.get? j := by
  intro l
  induction l with
  | nil =>
    intro i j a
    simp [List.set]
  | cons x t ih =>
    intro i j a
    cases i with
    | zero =>
      cases j with
      | zero => simp [List.set]
      | succ m => simp [List.set]
    | succ n =>
      cases j with
      | zero => simp [List.set]
      | succ m =>
        simp only [List.set, List.get?, List.length_cons]
        rw [ih n m a]
        by_cases hc : n = m ∧ n < t.length
        · rw [if_pos hc, if_pos ⟨by omega, by omega⟩]
        · rw [if_neg hc, if_neg (by omega)]

theorem popTopPairs_mem (bsm : BundleStorageManagerBase) (links : List Nat)
    (link : Nat) (pa : priority_array_t) :
    (link, pa) ∈ popTopPairs bsm links ↔
      link ∈ links ∧ bsm.m_destMap.lookup link = some pa :=
  popTop_pairs_mem bsm.m_destMap links link pa

theorem popTopPairs_WF (bsm : BundleStorageManagerBase) (links : List Nat)
    (hwf : CatalogWF bsm.m_destMap) :
    ∀ p ∈ popTopPairs bsm links, PriorityArrayWF p.2 := by
  intro p hp
  obtain ⟨k, v⟩ := p
  obtain ⟨-, hl⟩ := (popTopPairs_mem bsm links k v).mp hp
  exact hwf (k, v) (lookup_mem _ _ _ hl)

theorem emAt_eq_some {dm : destination_map_t} {dst pi : Nat}
    {pa : priority_array_t} (h : List.lookup dst dm = some pa) :
    emAt dm dst pi = (pa.get? pi).getD [] := by
  unfold emAt
  rw [h]

theorem emAt_eq_none {dm : destination_map_t} {dst pi : Nat}
    (h : List.lookup dst dm = none) : emAt dm dst pi = [] := by
  unfold emAt
  rw [h]

theorem emAt_congr {dm1 dm2 : destination_map_t} {dst : Nat} (pi : Nat)
    (h : List.lookup dst dm1 = List.lookup dst dm2) :
    emAt dm1 dst pi = emAt dm2 dst pi := by
  unfold emAt
  rw [h]

theorem bucketAt_emAt (dm : destination_map_t) (dst pi exp : Nat) :
    bucketAt dm dst pi exp = ((emAt dm dst pi).lookup exp).getD [] := by
  unfold bucketAt emAt
  cases List.lookup dst dm <;> rfl

/-- Any expiration map sitting in a well-formed catalog is well-formed (a
missing destination or priority level gives the empty map, trivially
well-formed). -/
theorem emAt_WF (dm : destination_map_t) (dst pi : Nat) (hwf : CatalogWF dm) :
    ExpirationMapWF (emAt dm dst pi) := by
  unfold emAt
  cases hl : List.lookup dst dm with
  | none => exact ⟨List.chain'_nil, fun p hp => absurd hp (List.not_mem_nil p)⟩
  | some pa =>
    cases hg : pa.get? pi with
    | none =>
      simp only [hg, Option.getD_none]
      exact ⟨List.chain'_nil, fun p hp => absurd hp (List.not_mem_nil p)⟩
    | some em =>
      simp only [hg, Option.getD_some]
      exact (hwf (dst, pa) (lookup_mem _ _ _ hl)).2 em (List.get?_mem hg)

/-- The head of a sorted expiration map locates the bucket of its least key:
`bucketAt` agrees with the head bucket there and is empty strictly below
it. -/
theorem emAt_head_bucketAt (dm : destination_map_t) (dst pi e : Nat)
    (b : chain_info_flist_t) (hwf : CatalogWF dm)
    (hh : (emAt dm dst pi).head? = some (e, b)) :
    bucketAt dm dst pi e = b ∧ ∀ e', e' < e → bucketAt dm dst pi e' = [] := by
  have hsort := (emAt_WF dm dst pi hwf).1
  obtain ⟨hl, hn⟩ := expMap_head_spec _ e b hsort hh
  refine ⟨?_, ?_⟩
  · rw [bucketAt_emAt, hl]
    rfl
  · intro e' he'
    rw [bucketAt_emAt, hn e' he']
    rfl

/-- Popping the least key never lowers the head key of a sorted expiration
map. -/
theorem expMapPopFront_head_ge (em : expiration_map_t) (e : Nat)
    (l : chain_info_flist_t) (hsort : (em.map Prod.fst).Chain' (· < ·))
    (hh : em.head? = some (e, l)) :
    ∀ e' l', (expMapPopFront em e).head? = some (e', l') → e ≤ e' := by
  obtain ⟨t, rfl⟩ : ∃ t, em = (e, l) :: t := by
    cases em with
    | nil => simp at hh
    | cons p t =>
      obtain rfl : p = (e, l) := by simpa using hh
      exact ⟨t, rfl⟩
  have htail : ∀ e' l', t.head? = some (e', l') → e < e' := by
    intro e' l' ht
    cases t with
    | nil => simp at ht
    | cons q t' =>
      obtain rfl : q = (e', l') := by simpa using ht
      simp only [List.map_cons] at hsort
      exact (List.chain'_cons.mp hsort).1
  intro e' l' hh'
  simp only [expMapPopFront, if_pos rfl] at hh'
  cases l with
  | nil => exact le_of_lt (htail e' l' hh')
  | cons c cs =>
    cases cs with
    | nil => exact le_of_lt (htail e' l' hh')
    | cons c2 cs2 =>
      obtain ⟨rfl, -⟩ : e = e' ∧ (c2 :: cs2) = l' := by simpa using hh'
      exact le_rfl

/-- If every listed head at priority `i` is empty, `popTopAtPriority` finds
nothing. -/
theorem popTopAtPriority_all_empty (bsm : BundleStorageManagerBase)
    (pairs : List (Nat × priority_array_t)) (i : Nat)
    (h : ∀ p ∈ pairs, ((p.2.get? i).getD []).head? = none) :
    popTopAtPriority bsm pairs i = none := by
  unfold popTopAtPriority popTopScanPriority
  rw [popTopScanGo_all_none i U64MAX none pairs h]

theorem popTopLoop_all_empty (bsm : BundleStorageManagerBase)
    (pairs : List (Nat × priority_array_t)) :
    ∀ n : Nat, (∀ i, i < n → popTopAtPriority bsm pairs i = none) →
      popTopLoop bsm pairs n = none := by
  intro n
  induction n with
  | zero => intro _; rfl
  | succ m ih =>
    intro h
    unfold popTopLoop
    rw [h m (Nat.lt_succ_self m)]
    exact ih (fun i hi => h i (by omega))

/-- Everything `PopTop` guarantees about a successful pop without assuming
catalog well-formedness: the selected session comes from a listed link whose
expiration map at the selected priority has the session's expiration and
chain at its head, that head key is minimal among all listed head keys at
that priority, and the updated store differs only by the front-pop of that
one expiration map. -/
theorem PopTop_some_provenance (bsm : BundleStorageManagerBase)
    (links : List Nat) (session : BundleStorageManagerSession_ReadFromDisk)
    (bsm' : BundleStorageManagerBase)
    (h : PopTop bsm links = some (session, bsm')) :
    session.destLinkId ∈ links ∧
    session.priorityIndex < NUMBER_OF_PRIORITIES ∧
    session.nextLogicalSegment = 0 ∧
    session.absExpiration < U64MAX ∧
    (∃ pa rest, List.lookup session.destLinkId bsm.m_destMap = some pa ∧
      ((pa.get? session.priorityIndex).getD []).head? =
        some (session.absExpiration, session.chainInfo :: rest)) ∧
    (∀ link' e' b', link' ∈ links →
      (emAt bsm.m_destMap link' session.priorityIndex).head? = some (e', b') →
      session.absExpiration ≤ e') ∧
    bsm'.M_MAX_SEGMENTS = bsm.M_MAX_SEGMENTS ∧
    bsm'.M_NUM_STORAGE_DISKS = bsm.M_NUM_STORAGE_DISKS ∧
    bsm'.m_memoryManager = bsm.m_memoryManager ∧
    bsm'.disk = bsm.disk ∧
    bsm'.m_destMap =
      assocUpdate bsm.m_destMap session.destLinkId priority_array_new
        (fun pa => pa.set session.priorityIndex
          (expMapPopFront ((pa.get? session.priorityIndex).getD [])
            session.absExpiration)) := by
  have hl : popTopLoop bsm (popTopPairs bsm links) NUMBER_OF_PRIORITIES =
      some (session, bsm') := h
  obtain ⟨i, hi, hat, -⟩ :=
    popTopLoop_some_spec bsm (popTopPairs bsm links) _ _ hl
  obtain ⟨rest, hscan, hn0, hpi, hms, hnd, hmm, hdk, hdm⟩ :=
    popTopAtPriority_some_spec bsm (popTopPairs bsm links) i session bsm' hat
  subst hpi
  obtain ⟨⟨pa, hm, hhd, hlt⟩, hmin⟩ :=
    popTopScanPriority_some_spec (popTopPairs bsm links) session.priorityIndex
      session.destLinkId session.absExpiration (session.chainInfo :: rest) hscan
  obtain ⟨hmem, hpal⟩ := (popTopPairs_mem bsm links _ _).mp hm
  refine ⟨hmem, hi, hn0, hlt, ⟨pa, rest, hpal, hhd⟩, ?_, hms, hnd, hmm, hdk, hdm⟩
  intro link' e' b' hlk hh'
  cases hlp : List.lookup link' bsm.m_destMap with
  | none =>
    rw [emAt_eq_none hlp] at hh'
    simp at hh'
  | some pa' =>
    rw [emAt_eq_some hlp] at hh'
    exact hmin link' pa' e' b'
      ((popTopPairs_mem bsm links _ _).mpr ⟨hlk, hlp⟩) hh'

/-- `PopTop` returns 0 when every available destination's expiration maps
are all empty (even if other destinations hold chains). -/
theorem PopTop_none_of_empty (bsm : BundleStorageManagerBase)
    (links : List Nat)
    (hempty : ∀ link ∈ links, ∀ pi, pi < NUMBER_OF_PRIORITIES →
      emAt bsm.m_destMap link pi = []) :
    PopTop bsm links = none := by
  show popTopLoop bsm (popTopPairs bsm links) NUMBER_OF_PRIORITIES = none
  apply popTopLoop_all_empty
  intro i hi
  apply popTopAtPriority_all_empty
  intro p hp
  obtain ⟨k, v⟩ := p
  obtain ⟨hk, hlv⟩ := (popTopPairs_mem bsm links k v).mp hp
  have he : emAt bsm.m_destMap k i = [] := hempty k hk i hi
  rw [emAt_eq_some hlv] at he
  rw [he]
  rfl

/-- A successful pop took the highest nonempty priority: every listed
expiration map strictly above the popped priority is empty. -/
theorem PopTop_some_maximal (bsm : BundleStorageManagerBase)
    (links : List Nat) (session : BundleStorageManagerSession_ReadFromDisk)
    (bsm' : BundleStorageManagerBase) (hwf : CatalogWF bsm.m_destMap)
    (h : PopTop bsm links = some (session, bsm')) :
    ∀ link ∈ links, ∀ pi, session.priorityIndex < pi →
      pi < NUMBER_OF_PRIORITIES → emAt bsm.m_destMap link pi = [] := by
  have hl : popTopLoop bsm (popTopPairs bsm links) NUMBER_OF_PRIORITIES =
      some (session, bsm') := h
  obtain ⟨i, hi, hat, hnone⟩ :=
    popTopLoop_some_spec bsm (popTopPairs bsm links) _ _ hl
  obtain ⟨rest, hscan, hn0, hpi, -, -, -, -, -⟩ :=
    popTopAtPriority_some_spec bsm (popTopPairs bsm links) i session bsm' hat
  subst hpi
  intro link hlk pi hgt hlt3
  have hscannone := popTopAtPriority_none_scan bsm (popTopPairs bsm links) pi
    (popTopPairs_WF bsm links hwf) (hnone pi hgt hlt3)
  cases hlp : List.lookup link bsm.m_destMap with
  | none => exact emAt_eq_none hlp
  | some pa =>
    rw [emAt_eq_some hlp]
    exact popTopScanPriority_none_em_empty (popTopPairs bsm links) pi hscannone
      (popTopPairs_WF bsm links hwf) link pa
      ((popTopPairs_mem bsm links _ _).mpr ⟨hlk, hlp⟩)

/-- The catalog after a successful pop, expiration-map level: only the popped
`(destination, priority)` slot changes, by a front pop of its least key. -/
theorem PopTop_some_emAt (bsm : BundleStorageManagerBase) (links : List Nat)
    (session : BundleStorageManagerSession_ReadFromDisk)
    (bsm' : BundleStorageManagerBase) (hwf : CatalogWF bsm.m_destMap)
    (h : PopTop bsm links = some (session, bsm')) :
    ∀ dst pi, emAt bsm'.m_destMap dst pi =
      if dst = session.destLinkId ∧ pi = session.priorityIndex then
        expMapPopFront (emAt bsm.m_destMap dst pi) session.absExpiration
      else emAt bsm.m_destMap dst pi := by
  obtain ⟨-, hi3, -, -, ⟨pa, rest, hpal, hhd⟩, -, -, -, -, -, hdm⟩ :=
    PopTop_some_provenance bsm links session bsm' h
  have hplen : pa.length = NUMBER_OF_PRIORITIES :=
    (hwf (session.destLinkId, pa) (lookup_mem _ _ _ hpal)).1
  intro dst pi
  by_cases hd : dst = session.destLinkId
  · have hlhs : List.lookup dst bsm'.m_destMap =
        some (pa.set session.priorityIndex
          (expMapPopFront ((pa.get? session.priorityIndex).getD [])
            session.absExpiration)) := by
      rw [hdm, lookup_assocUpdate, if_pos hd.symm, hpal]
      rfl
    rw [emAt_eq_some hlhs]
    by_cases hp : pi = session.priorityIndex
    · rw [if_pos ⟨hd, hp⟩, hp, get?_set_spec,
        if_pos ⟨rfl, by rw [hplen]; exact hi3⟩]
      rw [hd, emAt_eq_some hpal]
      rfl
    · rw [if_neg (fun hc => hp hc.2), get?_set_spec,
        if_neg (fun hc => hp hc.1.symm)]
      rw [hd, emAt_eq_some hpal]
  · have hlhs : List.lookup dst bsm'.m_destMap = List.lookup dst bsm.m_destMap := by
      rw [hdm, lookup_assocUpdate, if_neg (fun hc => hd hc.symm)]
    rw [emAt_congr pi hlhs, if_neg (fun hc => hd hc.1)]

/-- The catalog after a successful pop, bucket level: the popped bucket loses
its front chain, every other bucket is untouched. -/
theorem PopTop_some_detach (bsm : BundleStorageManagerBase) (links : List Nat)
    (session : BundleStorageManagerSession_ReadFromDisk)
    (bsm' : BundleStorageManagerBase) (hwf : CatalogWF bsm.m_destMap)
    (h : PopTop bsm links = some (session, bsm')) :
    ∀ dst pi exp, bucketAt bsm'.m_destMap dst pi exp =
      if dst = session.destLinkId ∧ pi = session.priorityIndex ∧
          exp = session.absExpiration then
        (bucketAt bsm.m_destMap dst pi exp).tail
      else bucketAt bsm.m_destMap dst pi exp := by
  obtain ⟨-, -, -, -, ⟨pa, rest, hpal, hhd⟩, -, -, -, -, -, -⟩ :=
    PopTop_some_provenance bsm links session bsm' h
  have hemup := PopTop_some_emAt bsm links session bsm' hwf h
  have hem1 : (emAt bsm.m_destMap session.destLinkId
      session.priorityIndex).head? =
      some (session.absExpiration, session.chainInfo :: rest) := by
    rw [emAt_eq_some hpal]
    exact hhd
  have hsort :=
    (emAt_WF bsm.m_destMap session.destLinkId session.priorityIndex hwf).1
  intro dst pi exp
  rw [bucketAt_emAt, bucketAt_emAt, hemup dst pi]
  by_cases hd : dst = session.destLinkId
  · by_cases hp : pi = session.priorityIndex
    · subst hd
      subst hp
      rw [if_pos ⟨rfl, rfl⟩]
      rw [expMapPopFront_lookup
        (emAt bsm.m_destMap session.destLinkId session.priorityIndex)
        session.absExpiration (session.chainInfo :: rest) hsort hem1 exp]
      by_cases hexp : exp = session.absExpiration
      · rw [if_pos hexp, if_pos ⟨rfl, rfl, hexp⟩, hexp,
          (expMap_head_spec _ _ _ hsort hem1).1]
        rfl
      · rw [if_neg hexp, if_neg (fun hc => hexp hc.2.2)]
    · rw [if_neg (fun hc => hp hc.2), if_neg (fun hc => hp hc.2.1)]
  · rw [if_neg (fun hc => hd hc.1), if_neg (fun hc => hd hc.1)]

/-- C2: pop ordering.  For any well-formed catalog and any available link
list, a successful `PopTop` detaches the front chain of the
earliest-expiration bucket of the highest nonempty priority among the listed
links: the popped chain heads its bucket, every listed expiration map at a
strictly higher priority is empty, every listed bucket at the same priority
with a strictly smaller expiration is empty, and the store changes only by
removing that front chain.  Across two consecutive pops the priority never
increases, the expiration never decreases within one priority (so a
higher-priority bundle is popped before a lower-priority one even when the
latter expires sooner), and two pops from the same bucket come out in LIFO
order (first pop = front, second pop = second element). -/
theorem C2_pop_ordering (bsm bsm1 bsm2 : BundleStorageManagerBase)
    (links : List Nat) (s1 s2 : BundleStorageManagerSession_ReadFromDisk)
    (hwf : CatalogWF bsm.m_destMap)
    (h1 : PopTop bsm links = some (s1, bsm1))
    (h2 : PopTop bsm1 links = some (s2, bsm2)) :
    (s1.destLinkId ∈ links ∧ s1.priorityIndex < NUMBER_OF_PRIORITIES) ∧
    (bucketAt bsm.m_destMap s1.destLinkId s1.priorityIndex
      s1.absExpiration).head? = some s1.chainInfo ∧
    (∀ link ∈ links, ∀ pi, s1.priorityIndex < pi →
      pi < NUMBER_OF_PRIORITIES → emAt bsm.m_destMap link pi = []) ∧
    (∀ link exp, link ∈ links → exp < s1.absExpiration →
      bucketAt bsm.m_destMap link s1.priorityIndex exp = []) ∧
    (∀ dst pi exp, bucketAt bsm1.m_destMap dst pi exp =
      if dst = s1.destLinkId ∧ pi = s1.priorityIndex ∧
          exp = s1.absExpiration then
        (bucketAt bsm.m_destMap dst pi exp).tail
      else bucketAt bsm.m_destMap dst pi exp) ∧
    s2.priorityIndex ≤ s1.priorityIndex ∧
    (s2.priorityIndex = s1.priorityIndex →
      s1.absExpiration ≤ s2.absExpiration) ∧
    (s2.destLinkId = s1.destLinkId ∧ s2.priorityIndex = s1.priorityIndex ∧
      s2.absExpiration = s1.absExpiration →
      ∃ r, bucketAt bsm.m_destMap s1.destLinkId s1.priorityIndex
        s1.absExpiration = s1.chainInfo :: s2.chainInfo :: r) := by
  obtain ⟨hmem1, hpi1, -, -, ⟨pa1, rest1, hpal1, hhd1⟩, hmin1, -, -, -, -, -⟩ :=
    PopTop_some_provenance bsm links s1 bsm1 h1
  have hem1 : (emAt bsm.m_destMap s1.destLinkId s1.priorityIndex).head? =
      some (s1.absExpiration, s1.chainInfo :: rest1) := by
    rw [emAt_eq_some hpal1]
    exact hhd1
  have hsort1 :=
    (emAt_WF bsm.m_destMap s1.destLinkId s1.priorityIndex hwf).1
  obtain ⟨hbeq, hblow⟩ :=
    emAt_head_bucketAt bsm.m_destMap s1.destLinkId s1.priorityIndex
      s1.absExpiration (s1.chainInfo :: rest1) hwf hem1
  have hmax := PopTop_some_maximal bsm links s1 bsm1 hwf h1
  have hdetach := PopTop_some_detach bsm links s1 bsm1 hwf h1
  have hemup := PopTop_some_emAt bsm links s1 bsm1 hwf h1
  obtain ⟨hmem2, hpi2, -, -, ⟨pa2, rest2, hpal2, hhd2⟩, -, -, -, -, -, -⟩ :=
    PopTop_some_provenance bsm1 links s2 bsm2 h2
  have hem2 : (emAt bsm1.m_destMap s2.destLinkId s2.priorityIndex).head? =
      some (s2.absExpiration, s2.chainInfo :: rest2) := by
    rw [emAt_eq_some hpal2]
    exact hhd2
  have hc6 : s2.priorityIndex ≤ s1.priorityIndex := by
    by_contra hgt
    push_neg at hgt
    have hcond : ¬(s2.destLinkId = s1.destLinkId ∧
        s2.priorityIndex = s1.priorityIndex) := fun hc => by omega
    rw [hemup s2.destLinkId s2.priorityIndex, if_neg hcond,
      hmax s2.destLinkId hmem2 s2.priorityIndex hgt hpi2] at hem2
    simp at hem2
  have hc7 : s2.priorityIndex = s1.priorityIndex →
      s1.absExpiration ≤ s2.absExpiration := by
    intro heq
    rw [hemup s2.destLinkId s2.priorityIndex] at hem2
    by_cases hd : s2.destLinkId = s1.destLinkId
    · rw [if_pos ⟨hd, heq⟩, hd, heq] at hem2
      exact expMapPopFront_head_ge _ _ _ hsort1 hem1 _ _ hem2
    · rw [if_neg (fun hc => hd hc.1), heq] at hem2
      exact hmin1 s2.destLinkId s2.absExpiration _ hmem2 hem2
  have hc8 : s2.destLinkId = s1.destLinkId ∧
      s2.priorityIndex = s1.priorityIndex ∧
      s2.absExpiration = s1.absExpiration →
      ∃ r, bucketAt bsm.m_destMap s1.destLinkId s1.priorityIndex
        s1.absExpiration = s1.chainInfo :: s2.chainInfo :: r := by
    rintro ⟨hd, hp, he⟩
    rw [hemup s2.destLinkId s2.priorityIndex, if_pos ⟨hd, hp⟩, hd, hp] at hem2
    obtain ⟨t, hemt⟩ : ∃ t, emAt bsm.m_destMap s1.destLinkId s1.priorityIndex =
        (s1.absExpiration, s1.chainInfo :: rest1) :: t := by
      cases hcase : emAt bsm.m_destMap s1.destLinkId s1.priorityIndex with
      | nil =>
        rw [hcase] at hem1
        simp at hem1
      | cons p t =>
        rw [hcase] at hem1
        obtain rfl : p = (s1.absExpiration, s1.chainInfo :: rest1) := by
          simpa using hem1
        exact ⟨t, rfl⟩
    rw [hemt] at hem2
    simp only [expMapPopFront, if_pos rfl] at hem2
    cases rest1 with
    | nil =>
      exfalso
      cases t with
      | nil => simp at hem2
      | cons q t' =>
        obtain rfl : q = (s2.absExpiration, s2.chainInfo :: rest2) := by
          simpa using hem2
        rw [hemt] at hsort1
        simp only [List.map_cons] at hsort1
        have hlt := (List.chain'_cons.mp hsort1).1
        omega
    | cons c cs =>
      obtain ⟨heq1, heq2⟩ : s1.absExpiration = s2.absExpiration ∧
          (c :: cs) = s2.chainInfo :: rest2 := by simpa using hem2
      rw [hbeq, heq2]
      exact ⟨rest2, rfl⟩
  refine ⟨⟨hmem1, hpi1⟩, by rw [hbeq]; rfl, hmax, ?_, hdetach, hc6, hc7, hc8⟩
  intro link exp hlk hexp
  cases hh : (emAt bsm.m_destMap link s1.priorityIndex).head? with
  | none =>
    rw [bucketAt_emAt, List.head?_eq_none_iff.mp hh]
    rfl
  | some p =>
    obtain ⟨eh, bh⟩ := p
    have hge := hmin1 link eh bh hlk hh
    exact (emAt_head_bucketAt bsm.m_destMap link s1.priorityIndex eh bh hwf
      hh).2 exp (by omega)

/-- C2 witness: in the concrete two-bundle store, the first pop takes the
expedited chain (priority 2, expiration 200) before the bulk chain
(priority 0, expiration 10), so the priority of consecutive pops never
increases even though the lower-priority bundle expires sooner. -/
theorem C2_pop_ordering_witness :
    s1C2.priorityIndex = 2 ∧ s2C2.priorityIndex = 0 ∧
    s1C2.absExpiration = 200 ∧ s2C2.absExpiration = 10 ∧
    s2C2.priorityIndex ≤ s1C2.priorityIndex :=
  ⟨rfl, rfl, rfl, rfl,
    (C2_pop_ordering bsmC2 bsmC2a bsmC2b [1] s1C2 s2C2
      (by
        intro p hp
        simp only [bsmC2, dmC2, List.mem_singleton] at hp
        subst hp
        refine ⟨rfl, ?_⟩
        intro em hem
        simp only [List.mem_cons, List.not_mem_nil, or_false] at hem
        rcases hem with rfl | rfl | rfl
        · exact ⟨List.chain'_singleton _, by
            intro q hq
            simp only [List.mem_singleton] at hq
            subst hq
            exact ⟨by simp [ciC2b], by simp [U64MAX]⟩⟩
        · exact ⟨List.chain'_nil, fun q hq => absurd hq (List.not_mem_nil q)⟩
        · exact ⟨List.chain'_singleton _, by
            intro q hq
            simp only [List.mem_singleton] at hq
            subst hq
            exact ⟨by simp [ciC2a], by simp [U64MAX]⟩⟩) rfl
      rfl).2.2.2.2.2.1⟩

/-- C9: strict destination filtering.  A successful `PopTop` always detaches
a chain whose destination is in the caller's `availableDestLinks`, and
leaves the catalog entry of every unlisted destination untouched; when every
listed destination's expiration maps are all empty, `PopTop` returns 0 even
if chains exist for other destinations. -/
theorem C9_strict_destination_filtering (bsm : BundleStorageManagerBase)
    (links : List Nat) :
    (∀ session bsm', PopTop bsm links = some (session, bsm') →
      session.destLinkId ∈ links ∧
      ∀ dst, dst ∉ links →
        List.lookup dst bsm'.m_destMap = List.lookup dst bsm.m_destMap) ∧
    ((∀ link ∈ links, ∀ pi, pi < NUMBER_OF_PRIORITIES →
        emAt bsm.m_destMap link pi = []) →
      PopTop bsm links = none) := by
  constructor
  · intro session bsm' h
    obtain ⟨hmem, -, -, -, -, -, -, -, -, -, hdm⟩ :=
      PopTop_some_provenance bsm links session bsm' h
    refine ⟨hmem, ?_⟩
    intro dst hdst
    have hne : session.destLinkId ≠ dst := fun hc => hdst (hc ▸ hmem)
    rw [hdm, lookup_assocUpdate, if_neg hne]
  · exact PopTop_none_of_empty bsm links

/-- C9 witness: a store holding a chain only for destination 9 yields
nothing when only link 5 is available. -/
theorem C9_strict_destination_filtering_witness :
    PopTop bsmC9 [5] = none :=
  (C9_strict_destination_filtering bsmC9 [5]).2 (by decide)

end HDTN
